import Mathlib

/-! # qrl-api dashboard scripts

A shallow embedding of the browser-side dashboard of `7Spade/qrl-api`
(`templates/static/js`): the shared helpers of `shared/time.js`, the eight
loaders, `refresh.js` and `pages/dashboard/init.js`.

Modelling conventions.

* A JSON/JavaScript value is a `JsVal`.  A Number is a `JsNum`: NaN, an
  infinity, or the finite value `(-1)^neg * mant * 2^exp` (every IEEE double
  is of that form).
* Built-ins whose result depends on the engine, the locale or on IEEE
  rounding (`Number::toString`, `parseFloat`, `+`, `*`, `toUpperCase`,
  `Date.parse`, `toLocaleString("zh-TW")`, the clock, the CSS and HTML
  parsers) are fields of `Host`.
  `Number.prototype.toFixed` is written out after ECMA-262.
* The document is the list of the elements the scripts address, none nested
  in another; an element handle is its position.  An element's content is set
  as text or as markup: either assignment replaces its children, so both
  `textContent` and `innerHTML` change.
* An `async` loader is a function of the outcome of its `fetch`; its promise
  fulfils (`Except.ok`) or rejects (`Except.error`).
-/

namespace QrlDashboard

/-! ## JavaScript values -/

/-- A JavaScript Number. -/
inductive JsNum where
  | nan
  | inf (neg : Bool)
  | fin (neg : Bool) (mant : Nat) (exp : Int)
  deriving DecidableEq, Repr

/-- A JavaScript value as `JSON.parse` can produce it, plus `undefined`. -/
inductive JsVal where
  | undefined
  | null
  | bool (b : Bool)
  | num (n : JsNum)
  | str (s : String)
  | arr (items : List JsVal)
  | obj (fields : List (String × JsVal))

/-- The errors the scripts can raise. `httpError s` is `new Error("HTTP " + s)`. -/
inductive JsError where
  | typeError
  | rangeError
  | syntaxError
  | networkError
  | httpError (status : Nat)
  deriving DecidableEq, Repr

/-- Engine- and locale-dependent built-ins. -/
structure Host where
  /-- `Number::toString` of the finite value `(-1)^neg * mant * 2^exp`. -/
  finToString : Bool → Nat → Int → String
  /-- `parseFloat` of a string. -/
  parseFloatStr : String → JsNum
  /-- Number addition. -/
  add : JsNum → JsNum → JsNum
  /-- Number multiplication. -/
  mul : JsNum → JsNum → JsNum
  /-- `String.prototype.toUpperCase`. -/
  toUpperCase : String → String
  /-- The empty string has no letters to change. -/
  toUpperCase_empty : toUpperCase "" = ""
  /-- `Date.parse`: the time value, or `none` for NaN. -/
  dateParse : String → Option Int
  /-- `Date.prototype.toLocaleString("zh-TW")` of a valid time value. -/
  toLocaleString : Int → String
  /-- The time value of `new Date()`. -/
  now : Int
  /-- The CSS parser on a value assigned to `style.color`: none when the value
  is not valid (the assignment is ignored), else the value as serialised. -/
  parseColor : String → Option String
  /-- The references to the custom properties the scripts use are valid. -/
  parseColor_danger : parseColor "var(--danger)" = some "var(--danger)"
  /-- See `parseColor_danger`. -/
  parseColor_success : parseColor "var(--success)" = some "var(--success)"
  /-- See `parseColor_danger`. -/
  parseColor_warning : parseColor "var(--warning)" = some "var(--warning)"
  /-- The HTML parser: the text content of the nodes a piece of markup yields. -/
  htmlText : String → String

/-- Drop the tags of a piece of markup: what is between `<` and `>`. -/
def stripTags : Bool → List Char → List Char
  | _, [] => []
  | inTag, c :: cs =>
    if c = '<' then stripTags true cs
    else if c = '>' then stripTags false cs
    else if inTag then stripTags inTag cs
    else c :: stripTags inTag cs

/-- A host used to evaluate the definitions on concrete inputs. -/
def sampleHost : Host where
  finToString := fun neg mant exp =>
    (if neg then "-" else "") ++ toString mant ++ "*2^" ++ toString exp
  parseFloatStr := fun s => if s = "0" then JsNum.fin false 0 0 else JsNum.nan
  add := fun _ _ => JsNum.nan
  mul := fun _ _ => JsNum.nan
  toUpperCase := fun s => String.mk (s.data.map Char.toUpper)
  toUpperCase_empty := rfl
  dateParse := fun _ => none
  toLocaleString := fun t => "date:" ++ toString t
  now := 1700000000000
  parseColor := fun s =>
    if s ∈ ["var(--danger)", "var(--success)", "var(--warning)", "red", "green"] then some s
    else none
  parseColor_danger := by decide
  parseColor_success := by decide
  parseColor_warning := by decide
  htmlText := fun s => String.mk (stripTags false s.data)

/-- `ToBoolean`. -/
def JsVal.truthy : JsVal → Bool
  | .undefined => false
  | .null => false
  | .bool b => b
  | .num .nan => false
  | .num (.inf _) => true
  | .num (.fin _ mant _) => mant != 0
  | .str s => s != ""
  | .arr _ => true
  | .obj _ => true

/-- The operator `a || b`. -/
def JsVal.or (a b : JsVal) : JsVal := if a.truthy then a else b

/-- The operator `a ?? b`. -/
def JsVal.coalesce (a b : JsVal) : JsVal :=
  match a with
  | .undefined => b
  | .null => b
  | _ => a

/-- `Number::toString`. -/
def JsNum.toStr (H : Host) : JsNum → String
  | .nan => "NaN"
  | .inf neg => if neg then "-Infinity" else "Infinity"
  | .fin neg mant exp => H.finToString neg mant exp

/-- Field lookup in a parsed JSON object: the own property `name`. A key
occurs once in a parsed object; of a repeated key the first entry counts. -/
def lookupField (name : String) : List (String × JsVal) → Option JsVal
  | [] => none
  | (k, v) :: rest => if k == name then some v else lookupField name rest

/-- Whether a parsed object has the own property `name`. -/
def hasField (name : String) : List (String × JsVal) → Bool
  | [] => false
  | (k, _) :: rest => k == name || hasField name rest

mutual
/-- `ToString`, as a template literal applies it. An object goes through
`OrdinaryToPrimitive`: with an own property `toString` (never callable in
parsed JSON) no method yields a primitive and a TypeError is thrown; without
one, `Object.prototype.toString` gives "[object Object]". An array is joined. -/
def JsVal.toStr (H : Host) : JsVal → Except JsError String
  | .undefined => .ok "undefined"
  | .null => .ok "null"
  | .bool b => .ok (if b then "true" else "false")
  | .num n => .ok (n.toStr H)
  | .str s => .ok s
  | .arr items =>
    match JsVal.joinItems H items with
    | .ok parts => .ok (String.intercalate "," parts)
    | .error e => .error e
  | .obj fields => if hasField "toString" fields then .error .typeError else .ok "[object Object]"
/-- The pieces `Array.prototype.join` concatenates: null and undefined are empty. -/
def JsVal.joinItems (H : Host) : List JsVal → Except JsError (List String)
  | [] => .ok []
  | .undefined :: vs =>
    match JsVal.joinItems H vs with
    | .ok parts => .ok ("" :: parts)
    | .error e => .error e
  | .null :: vs =>
    match JsVal.joinItems H vs with
    | .ok parts => .ok ("" :: parts)
    | .error e => .error e
  | v :: vs =>
    match JsVal.toStr H v with
    | .ok part =>
      match JsVal.joinItems H vs with
      | .ok parts => .ok (part :: parts)
      | .error e => .error e
    | .error e => .error e
end

/-- The length of a string in UTF-16 code units. -/
def utf16Length (s : String) : Nat :=
  (s.data.map (fun c => if c.val ≥ 0x10000 then 2 else 1)).sum

/-- Property read `v.name` for the data property names the scripts use (none of
them is defined on a built-in prototype, `length` apart). -/
def JsVal.getProp (v : JsVal) (name : String) : Except JsError JsVal :=
  match v with
  | .undefined => .error .typeError
  | .null => .error .typeError
  | .obj fields => .ok ((lookupField name fields).getD .undefined)
  | .arr items =>
    if name == "length" then .ok (.num (.fin false items.length 0)) else .ok .undefined
  | .str s =>
    if name == "length" then .ok (.num (.fin false (utf16Length s) 0)) else .ok .undefined
  | _ => .ok .undefined

/-- Indexed read `v[i]` (strings: exact for characters of the basic plane). -/
def JsVal.getIndex (v : JsVal) (i : Nat) : Except JsError JsVal :=
  match v with
  | .undefined => .error .typeError
  | .null => .error .typeError
  | .obj fields => .ok ((lookupField (toString i) fields).getD .undefined)
  | .arr items => .ok (items.getD i .undefined)
  | .str s =>
    match s.data.get? i with
    | some c => .ok (.str (String.singleton c))
    | none => .ok .undefined
  | _ => .ok .undefined

/-- `parseFloat(v)`: the argument is converted to a string first. -/
def parseFloat (H : Host) (v : JsVal) : Except JsError JsNum :=
  (v.toStr H).map H.parseFloatStr

/-- `Number.isNaN`. -/
def numberIsNaN : JsVal → Bool
  | .num .nan => true
  | _ => false

/-- The comparison `x >= 0`. -/
def JsNum.geZero : JsNum → Bool
  | .nan => false
  | .inf neg => !neg
  | .fin neg mant _ => !neg || mant == 0

/-! ## Number.prototype.toFixed -/

/-- The integer `n` for which `n / 10^f - mant * 2^exp` is closest to zero, the
larger one of two. -/
def roundScaled (mant : Nat) (exp : Int) (f : Nat) : Nat :=
  match exp with
  | Int.ofNat k => mant * 2 ^ k * 10 ^ f
  | Int.negSucc k => (mant * 10 ^ f * 2 + 2 ^ (k + 1)) / (2 * 2 ^ (k + 1))

/-- Whether `mant * 2^exp ≥ 10^21`. -/
def geTenPow21 (mant : Nat) (exp : Int) : Bool :=
  match exp with
  | Int.ofNat k => decide (10 ^ 21 ≤ mant * 2 ^ k)
  | Int.negSucc k => decide (10 ^ 21 * 2 ^ (k + 1) ≤ mant)

/-- Steps 11.b and 11.c of `Number.prototype.toFixed`: the digits of `n`, padded
to more than `f` digits, with a point before the last `f` of them. -/
def fixedDigits (n f : Nat) : List Char :=
  let m := Nat.toDigits 10 n
  if f ≠ 0 then
    let k := m.length
    let m := if k ≤ f then List.replicate (f + 1 - k) '0' ++ m else m
    let k := if k ≤ f then f + 1 else k
    let a := m.take (k - f)
    let b := m.drop (k - f)
    a ++ '.' :: b
  else m

/-- `x.toFixed(f)` for a Number `x` (ECMA-262, Number.prototype.toFixed). -/
def JsNum.toFixed (H : Host) (x : JsNum) (f : Nat) : Except JsError String :=
  if f > 100 then .error .rangeError
  else
    match x with
    | .nan => .ok "NaN"
    | .inf neg => .ok (if neg then "-Infinity" else "Infinity")
    | .fin neg mant exp =>
      let s := if neg && mant != 0 then "-" else ""
      if geTenPow21 mant exp then .ok (s ++ H.finToString false mant exp)
      else .ok (s ++ String.mk (fixedDigits (roundScaled mant exp f) f))

/-- The call `v.toFixed(f)` on an arbitrary value: only a Number has the method. -/
def JsVal.callToFixed (H : Host) (v : JsVal) (f : Nat) : Except JsError String :=
  match v with
  | .num x => x.toFixed H f
  | _ => .error .typeError

/-! ## The document -/

/-- An element of the host page, as far as the scripts touch it: its `id`
attribute, the text and the markup of its content, and `style.color`. -/
structure Element where
  id : String
  textContent : String
  color : String
  innerHTML : String
  deriving DecidableEq, Repr

/-- The host page. -/
abbrev Document := List Element

/-- Apply `f` to the element at position `i`. -/
def updateAt (f : Element → Element) : Nat → Document → Document
  | _, [] => []
  | 0, e :: es => f e :: es
  | i + 1, e :: es => e :: updateAt f i es

/-- The position of the first element whose `id` attribute is `id`. -/
def findById : Document → String → Option Nat
  | [], _ => none
  | e :: es, id => if e.id = id then some 0 else (findById es id).map (· + 1)

/-- `document.getElementById`: the first element whose ID is `id`; an empty
`id` attribute is no ID, so the empty string finds nothing. -/
def getElementById (doc : Document) (id : String) : Option Nat :=
  if id = "" then none else findById doc id

/-- How the serialiser writes one character of a text node. -/
def escapeChar (c : Char) : List Char :=
  if c = '&' then "&amp;".data
  else if c = '<' then "&lt;".data
  else if c = '>' then "&gt;".data
  else if c = Char.ofNat 160 then "&nbsp;".data
  else [c]

/-- The markup of a text node: `innerHTML` of an element whose content is text. -/
def escapeText (text : String) : String :=
  String.mk (text.data.flatMap escapeChar)

/-- The assignment `el.textContent = text`: the children are replaced by the
text, so `innerHTML` becomes the markup of that text. -/
def setTextContent (doc : Document) (el : Nat) (text : String) : Document :=
  updateAt (fun e => { e with textContent := text, innerHTML := escapeText text }) el doc

/-- The assignment `el.style.color = value`: the empty string removes the
declaration, a valid value is stored as serialised, any other is ignored. -/
def setStyleColor (H : Host) (doc : Document) (el : Nat) (value : String) : Document :=
  if value = "" then updateAt (fun e => { e with color := "" }) el doc
  else
    match H.parseColor value with
    | some c => updateAt (fun e => { e with color := c }) el doc
    | none => doc

/-- The assignment `el.innerHTML = html`: the children are replaced by what the
markup yields, so `textContent` becomes the text of it. -/
def setInnerHTML (H : Host) (doc : Document) (el : Nat) (html : String) : Document :=
  updateAt (fun e => { e with innerHTML := html, textContent := H.htmlText html }) el doc

/-! ## shared/time.js -/

/-- The expression `color || ""` for an optional string argument. -/
def colorOrEmpty : Option String → String
  | none => ""
  | some c => if c != "" then c else ""

/-- `setText(id, text, color)`; `color = none` is the omitted argument. -/
def setText (H : Host) (doc : Document) (id text : String) (color : Option String) :
    Document :=
  match getElementById doc id with
  | none => doc
  | some el =>
    let doc := setTextContent doc el text
    setStyleColor H doc el (colorOrEmpty color)

/-- `formatNumber(num, digits = 4)`; `digits = none` is the omitted argument. -/
def formatNumber (H : Host) (num : JsVal) (digits : Option Nat) : Except JsError String :=
  let digits := digits.getD 4
  if numberIsNaN num then .ok "--" else num.callToFixed H digits

/-- `TimeClip` of a finite Number: none when out of the Date range, else the
value truncated towards zero. -/
def timeClip (neg : Bool) (mant : Nat) (exp : Int) : Option Int :=
  match exp with
  | Int.ofNat k =>
    if 8640000000000000 < mant * 2 ^ k then none
    else some (if neg then -((mant * 2 ^ k : Nat) : Int) else ((mant * 2 ^ k : Nat) : Int))
  | Int.negSucc k =>
    if 8640000000000000 * 2 ^ (k + 1) < mant then none
    else some (if neg then -((mant / 2 ^ (k + 1) : Nat) : Int)
               else ((mant / 2 ^ (k + 1) : Nat) : Int))

/-- The time value of `new Date(ts)`, none for an invalid date. An array or
an object is converted to a primitive first, which is its string (or throws,
see `JsVal.toStr`), and the string is parsed. -/
def newDate (H : Host) (ts : JsVal) : Except JsError (Option Int) :=
  match ts with
  | .undefined => .ok none
  | .null => .ok (some 0)
  | .bool b => .ok (some (if b then 1 else 0))
  | .num .nan => .ok none
  | .num (.inf _) => .ok none
  | .num (.fin neg mant exp) => .ok (timeClip neg mant exp)
  | .str s => .ok (H.dateParse s)
  | v => (v.toStr H).map H.dateParse

/-- `formatTime(ts)`. -/
def formatTime (H : Host) (ts : JsVal) : Except JsError String :=
  if !ts.truthy then .ok "--"
  else
    match newDate H ts with
    | .error e => .error e
    | .ok none => .ok "--"
    | .ok (some t) => .ok (H.toLocaleString t)

/-! ## Effects: the page, the network and the console -/

/-- The body of a response: what `res.json()` yields. -/
inductive Body where
  /-- The text is not JSON: `res.json()` rejects. -/
  | unparsable
  | json (v : JsVal)

/-- The outcome of one `fetch`, as far as it is known at the moment observed. -/
inductive FetchResult where
  /-- No answer yet: the promise is still pending. -/
  | pending
  /-- The promise rejects (network failure). -/
  | rejected
  | response (status : Nat) (body : Body)

/-- The server and network: the outcome of a GET of each path. -/
abbrev Net := String → FetchResult

/-- What a script does besides writing the document. -/
inductive Event where
  | fetch (path : String)
  | readBody
  | consoleError (msg : String) (err : JsError)
  deriving DecidableEq, Repr

/-- The state a loader runs against. -/
structure World where
  doc : Document
  log : List Event
  deriving DecidableEq, Repr

/-- How far a computation got: it returned, it threw, or it waits at an
`await`. For an `async` function these are the states of its promise:
fulfilled, rejected, pending. -/
inductive Completion (α : Type) where
  | done (a : α)
  | thrown (e : JsError)
  | pending
  deriving DecidableEq, Repr

/-- A computation that reads and writes the world. The world survives a throw. -/
def Js (α : Type) : Type := World → Completion α × World

namespace Js

/-- A computation that returns normally. -/
def ret {α : Type} (a : α) : Js α := fun w => (.done a, w)

/-- Sequencing: a throw or a pending `await` skips the rest. -/
def andThen {α β : Type} (m : Js α) (f : α → Js β) : Js β := fun w =>
  match m w with
  | (.done a, w1) => f a w1
  | (.thrown e, w1) => (.thrown e, w1)
  | (.pending, w1) => (.pending, w1)

/-- The statement `throw e`. -/
def raise {α : Type} (e : JsError) : Js α := fun w => (.thrown e, w)

/-- The statement `try { body } catch (err) { handler }`. -/
def attempt {α : Type} (body : Js α) (handler : JsError → Js α) : Js α := fun w =>
  match body w with
  | (.done a, w1) => (.done a, w1)
  | (.thrown e, w1) => handler e w1
  | (.pending, w1) => (.pending, w1)

/-- A pure step that may throw. -/
def lift {α : Type} (x : Except JsError α) : Js α := fun w =>
  match x with
  | .ok a => (.done a, w)
  | .error e => (.thrown e, w)

end Js

instance : Monad Js where
  pure := Js.ret
  bind := Js.andThen

instance : MonadExcept JsError Js where
  throw := Js.raise
  tryCatch := Js.attempt

/-- A fetched response. -/
structure Response where
  status : Nat
  body : Body

/-- The getter `res.ok`: the status is in 200..299. -/
def Response.ok (res : Response) : Bool := decide (200 ≤ res.status) && decide (res.status ≤ 299)

/-- The call `await fetch(path)`. -/
def fetch (net : Net) (path : String) : Js Response := fun w =>
  let w1 := { w with log := w.log ++ [Event.fetch path] }
  match net path with
  | .pending => (.pending, w1)
  | .rejected => (.thrown .networkError, w1)
  | .response status body => (.done { status := status, body := body }, w1)

/-- The call `await res.json()`. -/
def Response.json (res : Response) : Js JsVal := fun w =>
  let w1 := { w with log := w.log ++ [Event.readBody] }
  match res.body with
  | .unparsable => (.thrown .syntaxError, w1)
  | .json v => (.done v, w1)

/-- The call `document.getElementById(id)`; none is null. -/
def getElement (id : String) : Js (Option Nat) := fun w => (.done (getElementById w.doc id), w)

/-- The assignment `body.innerHTML = html`; it throws when `body` is null. -/
def assignInnerHTML (H : Host) (body : Option Nat) (html : String) : Js Unit := fun w =>
  match body with
  | none => (.thrown .typeError, w)
  | some el => (.done (), { w with doc := setInnerHTML H w.doc el html })

/-- The call `setText(id, text, color)` as a step. -/
def setTextJs (H : Host) (id text : String) (color : Option String) : Js Unit := fun w =>
  (.done (), { w with doc := setText H w.doc id text color })

/-- The call `console.error(msg, err)`. -/
def consoleError (msg : String) (err : JsError) : Js Unit := fun w =>
  (.done (), { w with log := w.log ++ [Event.consoleError msg err] })

/-- Modelled from the spec: `logError` of `shared/errors.js`, which is not among
the sources; a loader "writes a literal error placeholder and logs to console". -/
def logError (msg : String) (err : JsError) : Js Unit := consoleError msg err

/-! ## Array methods -/

/-- The call `v.map(f)`: only an array has the method. -/
def callMap {β : Type} (v : JsVal) (f : JsVal → Except JsError β) : Except JsError (List β) :=
  match v with
  | .arr items => items.mapM f
  | _ => .error .typeError

/-- The call `v.slice(0, n).map(f)`: a string has `slice` but its result has no
`map`; any other non-array has no callable `slice`. -/
def callSliceMap {β : Type} (v : JsVal) (n : Nat) (f : JsVal → Except JsError β) :
    Except JsError (List β) :=
  match v with
  | .arr items => (items.take n).mapM f
  | _ => .error .typeError

/-- The call `v.slice(-n).map(f)`: the last `n` items of an array. -/
def callSliceLastMap {β : Type} (v : JsVal) (n : Nat) (f : JsVal → Except JsError β) :
    Except JsError (List β) :=
  match v with
  | .arr items => (items.drop (items.length - n)).mapM f
  | _ => .error .typeError

/-- The callback `f => f.filterType === name`. -/
def filterTypeIs (name : String) (f : JsVal) : Except JsError Bool := do
  match (← f.getProp "filterType") with
  | .str s => pure (s == name)
  | _ => pure false

/-- `Array.prototype.find` with a callback that may throw. -/
def findFirst (p : JsVal → Except JsError Bool) : List JsVal → Except JsError JsVal
  | [] => .ok .undefined
  | v :: vs => do
    if (← p v) then pure v else findFirst p vs

/-- The optional chain `s?.filters?.find?.(f => f.filterType === name)`. -/
def findFilter (s : JsVal) (name : String) : Except JsError JsVal :=
  match s with
  | .undefined => .ok .undefined
  | .null => .ok .undefined
  | _ => do
    match (← s.getProp "filters") with
    | .undefined => pure .undefined
    | .null => pure .undefined
    | .arr items => findFirst (filterTypeIs name) items
    | filters =>
      match (← filters.getProp "find") with
      | .undefined => pure .undefined
      | .null => pure .undefined
      | _ => .error .typeError

/-- The optional read `v?.name`. -/
def JsVal.getPropOpt (v : JsVal) (name : String) : Except JsError JsVal :=
  match v with
  | .undefined => .ok .undefined
  | .null => .ok .undefined
  | _ => v.getProp name

/-- The interpolation `${v || "--"}`. -/
def orDash (H : Host) (v : JsVal) : Except JsError String := (v.or (.str "--")).toStr H

/-- One table row: `<tr>` with one `<td>` per column. -/
def tableRow (columns : List String) : String :=
  "<tr>" ++ String.join (columns.map (fun c => "<td>" ++ c ++ "</td>")) ++ "</tr>"

/-! ## api/account/list_orders.js -/

/-- The call `v.toUpperCase()`: only a string has the method. -/
def callToUpperCase (H : Host) (v : JsVal) : Except JsError String :=
  match v with
  | .str s => .ok (H.toUpperCase s)
  | _ => .error .typeError

/-- The contents of the six `<td>` of the row of one order `o`. -/
def orderColumns (H : Host) (o : JsVal) : Except JsError (List String) := do
  let side ← callToUpperCase H ((← o.getProp "side").or (.str ""))
  let ts := ((← o.getProp "time").or (← o.getProp "updateTime")).or (← o.getProp "transactTime")
  let time ← formatTime H ts
  let price ← orDash H (← o.getProp "price")
  let origQty ← orDash H (← o.getProp "origQty")
  let executedQty ← orDash H (← o.getProp "executedQty")
  let status ← orDash H (← o.getProp "status")
  pure [time,
    "<span class=\"tag\">" ++ (if side != "" then side else "--") ++ "</span>",
    price, origQty, executedQty, status]

/-- The callback of `orders.map`. -/
def orderRow (H : Host) (o : JsVal) : Except JsError String :=
  (orderColumns H o).map tableRow

/-- `loadOrders()`. -/
def loadOrders (H : Host) (net : Net) : Js Unit := do
  let body ← getElement "orders-body"
  try
    let res ← fetch net "/account/orders"
    if res.status = 503 then
      assignInnerHTML H body
        "<tr><td colspan=\"6\" class=\"hint\">需要 API key 才能讀取</td></tr>"
    else
      if !res.ok then throw (JsError.httpError res.status)
      let data ← res.json
      let orders := (← Js.lift (data.getProp "orders")).or (.arr [])
      if !(← Js.lift (orders.getProp "length")).truthy then
        assignInnerHTML H body "<tr><td colspan=\"6\" class=\"hint\">目前沒有訂單</td></tr>"
      else
        let rows ← Js.lift (callMap orders (orderRow H))
        assignInnerHTML H body (String.join rows)
  catch err =>
    assignInnerHTML H body "<tr><td colspan=\"6\" class=\"error\">訂單載入失敗</td></tr>"
    consoleError "Orders load failed" err

/-! ## api/account/list_trades.js -/

/-- The expression
`t.quoteQty || (t.price && t.qty ? (parseFloat(t.price) * parseFloat(t.qty)).toFixed(4) : "--")`. -/
def tradeAmount (H : Host) (t : JsVal) : Except JsError JsVal := do
  let quoteQty ← t.getProp "quoteQty"
  if quoteQty.truthy then pure quoteQty
  else
    let price ← t.getProp "price"
    let qty ← t.getProp "qty"
    if price.truthy && qty.truthy then
      let p ← parseFloat H price
      let q ← parseFloat H qty
      let s ← (H.mul p q).toFixed H 4
      pure (.str s)
    else pure (.str "--")

/-- The contents of the six `<td>` of the row of one trade `t`. -/
def tradeColumns (H : Host) (t : JsVal) : Except JsError (List String) := do
  let isBuyer := (← t.getProp "isBuyer").or (← t.getProp "isBuyerMaker")
  let side := if isBuyer.truthy then "BUY" else "SELL"
  let amount ← tradeAmount H t
  let time ← formatTime H ((← t.getProp "time").or (← t.getProp "transactTime"))
  let price ← orDash H (← t.getProp "price")
  let qty ← orDash H (← t.getProp "qty")
  let amountText ← amount.toStr H
  let commission ← orDash H (← t.getProp "commission")
  let asset ← ((← t.getProp "commissionAsset").or (.str "")).toStr H
  pure [time,
    "<span class=\"tag\">" ++ side ++ "</span>",
    price, qty, amountText,
    commission ++ " " ++ asset]

/-- The callback of `trades.map`. -/
def tradeRow (H : Host) (t : JsVal) : Except JsError String :=
  (tradeColumns H t).map tableRow

/-- `loadTrades()`. -/
def loadTrades (H : Host) (net : Net) : Js Unit := do
  let body ← getElement "trades-body"
  try
    let res ← fetch net "/account/trades"
    if !res.ok then throw (JsError.httpError res.status)
    let data ← res.json
    let trades := (← Js.lift (data.getProp "trades")).or (.arr [])
    if !(← Js.lift (trades.getProp "length")).truthy then
      assignInnerHTML H body "<tr><td colspan=\"6\" class=\"hint\">目前沒有成交</td></tr>"
    else
      let rows ← Js.lift (callMap trades (tradeRow H))
      assignInnerHTML H body (String.join rows)
  catch err =>
    assignInnerHTML H body "<tr><td colspan=\"6\" class=\"error\">成交載入失敗</td></tr>"
    consoleError "Trades load failed" err

/-! ## api/market/get_trades.js -/

/-- The contents of the four `<td>` of the row of one aggregate trade `t`. -/
def aggTradeColumns (H : Host) (t : JsVal) : Except JsError (List String) := do
  let side := if (← t.getProp "isBuyerMaker").truthy then "SELL" else "BUY"
  let time ← formatTime H ((← t.getProp "T").or (← t.getProp "time"))
  let p ← orDash H (← t.getProp "p")
  let q ← orDash H (← t.getProp "q")
  pure [time, "<span class=\"tag\">" ++ side ++ "</span>", p, q]

/-- The callback of `trades.slice(0, 10).map`. -/
def aggTradeRow (H : Host) (t : JsVal) : Except JsError String :=
  (aggTradeColumns H t).map tableRow

/-- `loadAggTrades()`. -/
def loadAggTrades (H : Host) (net : Net) : Js Unit := do
  let body ← getElement "agg-body"
  try
    let res ← fetch net "/market/agg-trades/QRLUSDT?limit=10"
    if !res.ok then throw (JsError.httpError res.status)
    let data ← res.json
    let trades := (← Js.lift (data.getProp "data")).or (.arr [])
    if !(← Js.lift (trades.getProp "length")).truthy then
      assignInnerHTML H body "<tr><td colspan=\"4\" class=\"hint\">無成交</td></tr>"
    else
      let rows ← Js.lift (callSliceMap trades 10 (aggTradeRow H))
      assignInnerHTML H body (String.join rows)
  catch err =>
    assignInnerHTML H body "<tr><td colspan=\"4\" class=\"error\">Agg trades 載入失敗</td></tr>"
    logError "Agg trades failed" err

/-! ## api/klines.js -/

/-- The contents of the five `<td>` of the row of one kline `k`. -/
def klineColumns (H : Host) (k : JsVal) : Except JsError (List String) := do
  let time ← formatTime H (← k.getIndex 0)
  let k1 ← (← k.getIndex 1).toStr H
  let k2 ← (← k.getIndex 2).toStr H
  let k3 ← (← k.getIndex 3).toStr H
  let k4 ← (← k.getIndex 4).toStr H
  pure [time, k1, k2, k3, k4]

/-- The callback of `klines.slice(-5).map`. -/
def klineRow (H : Host) (k : JsVal) : Except JsError String :=
  (klineColumns H k).map tableRow

/-- `loadKlines()`. -/
def loadKlines (H : Host) (net : Net) : Js Unit := do
  let body ← getElement "kline-body"
  try
    let res ← fetch net "/market/klines/QRLUSDT?interval=1m&limit=5"
    if res.status = 404 then
      assignInnerHTML H body "<tr><td colspan=\"5\" class=\"hint\">僅支援 QRLUSDT</td></tr>"
    else
      if !res.ok then throw (JsError.httpError res.status)
      let data ← res.json
      let klines := (← Js.lift (data.getProp "data")).or (.arr [])
      if !(← Js.lift (klines.getProp "length")).truthy then
        assignInnerHTML H body "<tr><td colspan=\"5\" class=\"hint\">無K線資料</td></tr>"
      else
        let rows ← Js.lift (callSliceLastMap klines 5 (klineRow H))
        assignInnerHTML H body (String.join rows)
  catch err =>
    assignInnerHTML H body "<tr><td colspan=\"5\" class=\"hint\">無K線資料</td></tr>"
    consoleError "Klines failed" err

/-! ## api/exchangeInfo.js -/

/-- The contents of the four `<td>` of the row of the symbol `s`. -/
def exchangeInfoColumns (H : Host) (s : JsVal) : Except JsError (List String) := do
  let lot ← findFilter s "LOT_SIZE"
  let minQty := (← lot.getPropOpt "minQty").or (.str "--")
  let notional ← findFilter s "NOTIONAL"
  let minNotional := (← notional.getPropOpt "minNotional").or (.str "--")
  let symbol ← (← s.getProp "symbol").toStr H
  let status ← orDash H (← s.getProp "status")
  let minQtyText ← minQty.toStr H
  let minNotionalText ← minNotional.toStr H
  pure [symbol, status, minQtyText, minNotionalText]

/-- `loadExchangeInfo()`. -/
def loadExchangeInfo (H : Host) (net : Net) : Js Unit := do
  let body ← getElement "info-body"
  try
    let res ← fetch net "/market/exchange-info?symbol=QRLUSDT"
    if !res.ok then throw (JsError.httpError res.status)
    let data ← res.json
    let info := (← Js.lift (data.getProp "data")).or (.obj [])
    let symbols := (← Js.lift (info.getProp "symbols")).or (.arr [])
    if !(← Js.lift (symbols.getProp "length")).truthy then
      assignInnerHTML H body "<tr><td colspan=\"4\" class=\"hint\">無資料</td></tr>"
    else
      let s ← Js.lift (symbols.getIndex 0)
      let columns ← Js.lift (exchangeInfoColumns H s)
      assignInnerHTML H body (tableRow columns)
  catch err =>
    assignInnerHTML H body "<tr><td colspan=\"4\" class=\"error\">載入失敗</td></tr>"
    consoleError "Exchange info failed" err

/-! ## api/bookTicker.js and api/market/get_book_ticker.js -/

/-- The template `${book.a || "--"} / ${book.b || "--"}`. -/
def bookTickerText (H : Host) (book : JsVal) (a b : String) : Except JsError String := do
  let x ← orDash H (← book.getProp a)
  let y ← orDash H (← book.getProp b)
  pure (x ++ " / " ++ y)

/-- `loadBookTicker()` of `api/bookTicker.js`. -/
def loadBookTicker (H : Host) (net : Net) : Js Unit := do
  try
    let res ← fetch net "/market/book-ticker/QRLUSDT"
    if !res.ok then throw (JsError.httpError res.status)
    let data ← res.json
    let book := (← Js.lift (data.getProp "data")).or (.obj [])
    setTextJs H "best-bid" (← Js.lift (bookTickerText H book "bidPrice" "bidQty")) none
    setTextJs H "best-ask" (← Js.lift (bookTickerText H book "askPrice" "askQty")) none
  catch err =>
    setTextJs H "best-bid" "ERROR" (some "var(--danger)")
    setTextJs H "best-ask" "ERROR" (some "var(--danger)")
    consoleError "Book ticker failed" err

/-- `loadBookTicker()` of `api/market/get_book_ticker.js`: the same, logging
through `logError`. -/
def loadBookTickerMarket (H : Host) (net : Net) : Js Unit := do
  try
    let res ← fetch net "/market/book-ticker/QRLUSDT"
    if !res.ok then throw (JsError.httpError res.status)
    let data ← res.json
    let book := (← Js.lift (data.getProp "data")).or (.obj [])
    setTextJs H "best-bid" (← Js.lift (bookTickerText H book "bidPrice" "bidQty")) none
    setTextJs H "best-ask" (← Js.lift (bookTickerText H book "askPrice" "askQty")) none
  catch err =>
    setTextJs H "best-bid" "ERROR" (some "var(--danger)")
    setTextJs H "best-ask" "ERROR" (some "var(--danger)")
    logError "Book ticker failed" err

/-! ## api/market/get_price.js -/

/-- `loadPrice()`. -/
def loadPrice (H : Host) (net : Net) : Js Unit := do
  try
    let res ← fetch net "/market/ticker/QRLUSDT"
    if !res.ok then throw (JsError.httpError res.status)
    let data ← res.json
    let ticker := (← Js.lift (data.getProp "data")).or (.obj [])
    let price ← Js.lift (parseFloat H
      (((← Js.lift (ticker.getProp "lastPrice")).or (← Js.lift (ticker.getProp "price"))).or
        (.str "0")))
    let change ← Js.lift (parseFloat H
      ((← Js.lift (ticker.getProp "priceChangePercent")).or (.str "0")))
    setTextJs H "price" (← Js.lift (formatNumber H (.num price) (some 6))) none
    setTextJs H "change" ((← Js.lift (formatNumber H (.num change) (some 2))) ++ "%")
      (some (if change.geZero then "var(--success)" else "var(--danger)"))
    setTextJs H "updated" (H.toLocaleString H.now) none
  catch err =>
    setTextJs H "price" "ERROR" (some "var(--danger)")
    setTextJs H "change" "--" none
    setTextJs H "updated" "" none
    consoleError "Price load failed" err

/-! ## api/balance.js -/

/-- The object literal `{ free: '0', locked: '0' }`. -/
def zeroBalance : JsVal := .obj [("free", .str "0"), ("locked", .str "0")]

/-- `loadBalances()`. -/
def loadBalances (H : Host) (net : Net) : Js Unit := do
  try
    let res ← fetch net "/account/balance"
    if res.status = 503 then
      setTextJs H "qrl-total" "NEED API KEY" (some "var(--warning)")
      setTextJs H "usdt-total" "NEED API KEY" (some "var(--warning)")
    else
      if !res.ok then throw (JsError.httpError res.status)
      let data ← res.json
      let balances := (← Js.lift (data.getProp "balances")).or (.obj [])
      let qrl := (← Js.lift (balances.getProp "QRL")).or zeroBalance
      let usdt := (← Js.lift (balances.getProp "USDT")).or zeroBalance
      let qrlFree ← Js.lift (parseFloat H (← Js.lift (qrl.getProp "free")))
      let qrlLocked ← Js.lift (parseFloat H (← Js.lift (qrl.getProp "locked")))
      let qrlTotal ← Js.lift (parseFloat H
        ((← Js.lift (qrl.getProp "total")).coalesce (.num (H.add qrlFree qrlLocked))))
      let qrlValue ← Js.lift (parseFloat H
        ((← Js.lift (qrl.getProp "value_usdt")).coalesce (.str "0")))
      let usdtFree ← Js.lift (parseFloat H (← Js.lift (usdt.getProp "free")))
      let usdtLocked ← Js.lift (parseFloat H (← Js.lift (usdt.getProp "locked")))
      let usdtTotal ← Js.lift (parseFloat H
        ((← Js.lift (usdt.getProp "total")).coalesce (.num (H.add usdtFree usdtLocked))))
      setTextJs H "qrl-total" (← Js.lift (formatNumber H (.num qrlTotal) none)) none
      setTextJs H "qrl-value" (← Js.lift (formatNumber H (.num qrlValue) (some 2))) none
      setTextJs H "qrl-free" (← Js.lift (formatNumber H (.num qrlFree) none)) none
      setTextJs H "qrl-locked" (← Js.lift (formatNumber H (.num qrlLocked) none)) none
      setTextJs H "usdt-total" (← Js.lift (formatNumber H (.num usdtTotal) (some 2))) none
      setTextJs H "usdt-free" (← Js.lift (formatNumber H (.num usdtFree) (some 2))) none
      setTextJs H "usdt-locked" (← Js.lift (formatNumber H (.num usdtLocked) (some 2))) none
  catch err =>
    setTextJs H "qrl-total" "ERROR" (some "var(--danger)")
    setTextJs H "usdt-total" "ERROR" (some "var(--danger)")
    consoleError "Balance load failed" err

/-! ## refresh.js -/

/-- `Promise.all`: rejected as soon as one promise is rejected, fulfilled once
all are fulfilled, pending otherwise. -/
def promiseAll : List (Completion Unit) → Completion Unit
  | [] => .done ()
  | .thrown e :: _ => .thrown e
  | .done _ :: ps => promiseAll ps
  | .pending :: ps =>
    match promiseAll ps with
    | .thrown e => .thrown e
    | _ => .pending

/-- Call each function of the list in turn and collect the promises. -/
def callAll : List (Js Unit) → World → List (Completion Unit) × World
  | [], w => ([], w)
  | l :: ls, w =>
    let r := l w
    let rs := callAll ls r.2
    (r.1 :: rs.1, rs.2)

/-- The array literal of `refreshAll`: the nine calls, in order. `loadDepth`
(`api/depth.js`) is not among the sources and is a parameter. -/
def loaderCalls (H : Host) (net : Net) (loadDepth : Js Unit) : List (Js Unit) :=
  [loadBalances H net, loadPrice H net, loadBookTicker H net, loadExchangeInfo H net,
    loadDepth, loadAggTrades H net, loadKlines H net, loadOrders H net, loadTrades H net]

/-- `refreshAll()`: `await Promise.all([...])`. The loaders write disjoint
elements, so running them one after the other yields the document their
interleaving yields. -/
def refreshAll (H : Host) (net : Net) (loadDepth : Js Unit) : Js Unit := fun w =>
  let r := callAll (loaderCalls H net loadDepth) w
  (promiseAll r.1, r.2)

/-- The argument a click passes to its handler. -/
structure ClickEvent where
  timeStamp : Nat
  deriving DecidableEq, Repr

/-- The second argument of a `setInterval` call. -/
inductive IntervalArg where
  | ms (n : Nat)
  | event (ev : ClickEvent)
  deriving DecidableEq, Repr

/-- The page with its timers and listeners. -/
structure Page where
  world : World
  /-- The interval argument of every active interval timer, oldest first. -/
  timers : List IntervalArg
  /-- The element `startAutoRefresh` is registered on as click listener. -/
  clickListener : Option Nat
  /-- How many times `refreshAll` has been called by `startAutoRefresh`. -/
  refreshCalls : Nat
  deriving DecidableEq, Repr

/-- `startAutoRefresh(interval = 30000)`; `arg = none` is the call without
argument, `some ev` the call as a click handler. -/
def startAutoRefresh (H : Host) (net : Net) (loadDepth : Js Unit) (arg : Option ClickEvent)
    (p : Page) : Page :=
  let interval := match arg with
    | none => IntervalArg.ms 30000
    | some ev => IntervalArg.event ev
  { p with
    world := (refreshAll H net loadDepth p.world).2
    refreshCalls := p.refreshCalls + 1
    timers := p.timers ++ [interval] }

/-! ## pages/dashboard/init.js -/

/-- `initDashboard()`. -/
def initDashboard (H : Host) (net : Net) (loadDepth : Js Unit) (p : Page) : Page :=
  let refreshBtn := getElementById p.world.doc "refresh-btn"
  let p := match refreshBtn with
    | some btn => { p with clickListener := some btn }
    | none => p
  startAutoRefresh H net loadDepth none p

/-- A click on the element at position `target`: the browser calls the
registered listener with the event. -/
def click (H : Host) (net : Net) (loadDepth : Js Unit) (target : Nat) (ev : ClickEvent)
    (p : Page) : Page :=
  if p.clickListener = some target then startAutoRefresh H net loadDepth (some ev) p else p

/-- A sequence of clicks on the refresh button. -/
def clicks (H : Host) (net : Net) (loadDepth : Js Unit) (target : Nat) :
    List ClickEvent → Page → Page
  | [], p => p
  | ev :: evs, p => clicks H net loadDepth target evs (click H net loadDepth target ev p)

/-! ## Definitions used to state the properties -/

/-- The number a list of decimal digits denotes. -/
def decimalValue (ds : List Char) : Nat :=
  ds.foldl (fun acc c => 10 * acc + (c.toNat - 48)) 0

/-- The magnitude `mant * 2^exp` of a finite Number. -/
def magnitude (mant : Nat) (exp : Int) : ℚ := (mant : ℚ) * (2 : ℚ) ^ exp

/-- The Number with the integer value `t`. -/
def JsNum.ofInt (t : Int) : JsNum := .fin (decide (t < 0)) t.natAbs 0

/-- What `style.color` holds after the assignment of `value` when it held
`old`: nothing after the empty string, the serialised colour after a valid
value, `old` after any other. -/
def storedColor (H : Host) (old value : String) : String :=
  if value = "" then ""
  else
    match H.parseColor value with
    | some c => c
    | none => old

/-- An element with nothing in it. -/
def emptyElement (id : String) : Element :=
  { id := id, textContent := "", color := "", innerHTML := "" }

/-- A page with two text fields, one of them coloured. -/
def samplePage : Document :=
  [{ id := "price", textContent := "1.0", color := "var(--danger)", innerHTML := "1.0" },
   { id := "change", textContent := "", color := "", innerHTML := "" }]

/-- Whether a fetch has no answer yet. -/
def FetchResult.isPending : FetchResult → Bool
  | .pending => true
  | _ => false

/-- A computation that never throws. -/
structure Js.NoThrow {α : Type} (m : Js α) : Prop where
  out : ∀ w e, (m w).1 ≠ .thrown e

/-- A computation that never waits. -/
structure Js.NoWait {α : Type} (m : Js α) : Prop where
  out : ∀ w, (m w).1 ≠ .pending

/-- A computation that never returns normally. -/
structure Js.NoDone {α : Type} (m : Js α) : Prop where
  out : ∀ w a, (m w).1 ≠ .done a

/-- A computation that keeps what `getElementById` finds. -/
structure Js.KeepsIds {α : Type} (m : Js α) : Prop where
  out : ∀ w id, getElementById (m w).2.doc id = getElementById w.doc id

/-- A row with one cell spanning `colspan` columns, of class `hint`. -/
def hintRow (colspan : Nat) (text : String) : String :=
  "<tr><td colspan=\"" ++ toString colspan ++ "\" class=\"hint\">" ++ text ++ "</td></tr>"

/-- How the interpolation `${o.name || "--"}` shows the field `name` of an
object: "--" for an absent or falsy field, else the string of its value, when
it has one. -/
def shownField (H : Host) (fields : List (String × JsVal)) (name : String) :
    Except JsError String :=
  match lookupField name fields with
  | none => .ok "--"
  | some v => if v.truthy then v.toStr H else .ok "--"

/-- The value of the field `name` of an object, `undefined` when absent. -/
def fieldOf (fields : List (String × JsVal)) (name : String) : JsVal :=
  (lookupField name fields).getD .undefined

/-- The first truthy one of the fields `names` of an object, `undefined` when
none is truthy. -/
def firstTruthyField (fields : List (String × JsVal)) : List String → JsVal
  | [] => .undefined
  | name :: names =>
    if (fieldOf fields name).truthy then fieldOf fields name else firstTruthyField fields names

/-- What C9 says a field rendered through `|| "--"` shows when it is read off
a value that may not be an object: "--" for no object. -/
def shownFieldOf (H : Host) (v : JsVal) (name : String) : Except JsError String :=
  match v with
  | .obj fields => shownField H fields name
  | _ => .ok "--"

/-- What C9 says the side cell of an order shows: "--" for an absent or falsy
`side`, the upper-cased text of a string ("--" when that is empty); any other
truthy `side` has no `toUpperCase` and throws. -/
def expectedOrderSide (H : Host) (fields : List (String × JsVal)) : Except JsError String :=
  match lookupField "side" fields with
  | none => .ok "--"
  | some v =>
    if v.truthy then
      match v with
      | .str s => .ok (if H.toUpperCase s != "" then H.toUpperCase s else "--")
      | _ => .error .typeError
    else .ok "--"

/-- The cells C9 describes for an order with the fields `fields`. -/
def expectedOrderCells (H : Host) (fields : List (String × JsVal)) :
    Except JsError (List String) := do
  let side ← expectedOrderSide H fields
  let time ← formatTime H (firstTruthyField fields ["time", "updateTime", "transactTime"])
  let price ← shownField H fields "price"
  let origQty ← shownField H fields "origQty"
  let executedQty ← shownField H fields "executedQty"
  let status ← shownField H fields "status"
  pure [time, "<span class=\"tag\">" ++ side ++ "</span>", price, origQty, executedQty, status]

/-- The fields of an element as the row templates read them: reading a field
off null or undefined throws; a string, number, boolean or array has none of
the fields. -/
def elementFields : JsVal → Except JsError (List (String × JsVal))
  | .undefined => .error .typeError
  | .null => .error .typeError
  | .obj fields => .ok fields
  | _ => .ok []

/-- The row C9 describes for one element of `orders`. -/
def expectedOrderRow (H : Host) (o : JsVal) : Except JsError String := do
  let fields ← elementFields o
  (expectedOrderCells H fields).map tableRow

/-- The amount C9 describes for a trade: `quoteQty` when truthy, else the
product of `price` and `qty` to 4 digits when both are truthy, else "--". -/
def expectedTradeAmount (H : Host) (fields : List (String × JsVal)) : Except JsError JsVal :=
  if (fieldOf fields "quoteQty").truthy then .ok (fieldOf fields "quoteQty")
  else if (fieldOf fields "price").truthy && (fieldOf fields "qty").truthy then do
    let p ← parseFloat H (fieldOf fields "price")
    let q ← parseFloat H (fieldOf fields "qty")
    let s ← (H.mul p q).toFixed H 4
    pure (.str s)
  else .ok (.str "--")

/-- The cells C9 describes for a trade with the fields `fields`. -/
def expectedTradeCells (H : Host) (fields : List (String × JsVal)) :
    Except JsError (List String) := do
  let amount ← expectedTradeAmount H fields
  let time ← formatTime H (firstTruthyField fields ["time", "transactTime"])
  let price ← shownField H fields "price"
  let qty ← shownField H fields "qty"
  let amountText ← amount.toStr H
  let commission ← shownField H fields "commission"
  let asset ← (if (fieldOf fields "commissionAsset").truthy
    then (fieldOf fields "commissionAsset").toStr H else .ok "")
  pure [time,
    "<span class=\"tag\">" ++
      (if (firstTruthyField fields ["isBuyer", "isBuyerMaker"]).truthy then "BUY" else "SELL") ++
      "</span>",
    price, qty, amountText, commission ++ " " ++ asset]

/-- The row C9 describes for one element of `trades`. -/
def expectedTradeRow (H : Host) (t : JsVal) : Except JsError String := do
  let fields ← elementFields t
  (expectedTradeCells H fields).map tableRow

/-- The cells C9 describes for an aggregate trade with the fields `fields`. -/
def expectedAggTradeCells (H : Host) (fields : List (String × JsVal)) :
    Except JsError (List String) := do
  let time ← formatTime H (firstTruthyField fields ["T", "time"])
  let p ← shownField H fields "p"
  let q ← shownField H fields "q"
  pure [time,
    "<span class=\"tag\">" ++
      (if (fieldOf fields "isBuyerMaker").truthy then "SELL" else "BUY") ++ "</span>",
    p, q]

/-- The row C9 describes for one element of the aggregate trades. -/
def expectedAggTradeRow (H : Host) (t : JsVal) : Except JsError String := do
  let fields ← elementFields t
  (expectedAggTradeCells H fields).map tableRow

/-- The row C9 describes for a kline: the time from `k[0]`, and `k[1]` to `k[4]`
as their strings, with no fallback. -/
def expectedKlineRow (H : Host) (k : JsVal) : Except JsError String := do
  let time ← formatTime H (← k.getIndex 0)
  let k1 ← (← k.getIndex 1).toStr H
  let k2 ← (← k.getIndex 2).toStr H
  let k3 ← (← k.getIndex 3).toStr H
  let k4 ← (← k.getIndex 4).toStr H
  pure (tableRow [time, k1, k2, k3, k4])

/-- The row C9 describes for the symbol `s` of the exchange info: the symbol
as its string with no fallback, the status, and `minQty` and `minNotional` read
off the filters found. -/
def expectedExchangeInfoRow (H : Host) (s : JsVal) : Except JsError String := do
  let lot ← findFilter s "LOT_SIZE"
  let notional ← findFilter s "NOTIONAL"
  let fields ← elementFields s
  let symbol ← (fieldOf fields "symbol").toStr H
  let status ← shownField H fields "status"
  let minQty ← shownFieldOf H lot "minQty"
  let minNotional ← shownFieldOf H notional "minNotional"
  pure (tableRow [symbol, status, minQty, minNotional])

/-- The text C9 describes for one line of the book ticker. -/
def expectedBookText (H : Host) (fields : List (String × JsVal)) (a b : String) :
    Except JsError String := do
  let x ← shownField H fields a
  let y ← shownField H fields b
  pure (x ++ " / " ++ y)

/-- The document after the `catch` block of `loadBookTicker`. -/
def bookTickerError (H : Host) (doc : Document) : Document :=
  setText H (setText H doc "best-bid" "ERROR" (some "var(--danger)"))
    "best-ask" "ERROR" (some "var(--danger)")

/-- The rows joined, or a placeholder when one of them throws. -/
def rowsOr (placeholder : String) (rows : Except JsError (List String)) : String :=
  match rows with
  | .ok rs => String.join rs
  | .error _ => placeholder

/-- A page with every element the loaders write. -/
def dashboardPage : Document :=
  ["qrl-total", "qrl-value", "qrl-free", "qrl-locked", "usdt-total", "usdt-free", "usdt-locked",
    "price", "change", "updated", "best-bid", "best-ask", "info-body", "agg-body", "kline-body",
    "orders-body", "trades-body", "refresh-btn"].map emptyElement

/-- The dashboard page before any script ran. -/
def dashboardWorld : World := { doc := dashboardPage, log := [] }

/-- The dashboard page without the table body of the trades. -/
def pageWithoutTrades : World :=
  { doc := dashboardPage.filter (fun e => e.id != "trades-body"), log := [] }

/-- A network on which every request gets the same answer. -/
def netAll (r : FetchResult) : Net := fun _ => r

/-- A `loadDepth` that does nothing and fulfils. -/
def depthDone : Js Unit := Js.ret ()

/-- A network on which the orders request has no answer yet and every other
request is answered 200 with an empty object. -/
def netOrdersPending : Net := fun path =>
  if path = "/account/orders" then .pending else .response 200 (.json (.obj []))

/-- The identifiers of the five table bodies. -/
def tableBodyIds : List String :=
  ["info-body", "agg-body", "kline-body", "orders-body", "trades-body"]

/-- The dashboard page when its script starts: no timer, no listener. -/
def freshPage : Page :=
  { world := dashboardWorld, timers := [], clickListener := none, refreshCalls := 0 }

/-! ## Theorems -/

/-! ## The document: frame lemmas -/

theorem updateAt_length (f : Element → Element) (i : Nat) (doc : Document) :
    (updateAt f i doc).length = doc.length := by
  induction doc generalizing i with
  | nil => simp [updateAt]
  | cons e es ih => cases i <;> simp [updateAt, ih]

theorem updateAt_getElem? (f : Element → Element) (i j : Nat) (doc : Document) :
    (updateAt f i doc)[j]? = if j = i then doc[j]?.map f else doc[j]? := by
  induction doc generalizing i j with
  | nil => simp [updateAt]
  | cons e es ih =>
    cases i with
    | zero => cases j <;> simp [updateAt]
    | succ i => cases j <;> simp [updateAt, ih]

theorem updateAt_updateAt (f g : Element → Element) (i : Nat) (doc : Document) :
    updateAt g i (updateAt f i doc) = updateAt (g ∘ f) i doc := by
  induction doc generalizing i with
  | nil => simp [updateAt]
  | cons e es ih => cases i <;> simp [updateAt, ih]

theorem updateAt_self (i : Nat) (doc : Document) : updateAt (fun e => e) i doc = doc := by
  induction doc generalizing i with
  | nil => simp [updateAt]
  | cons e es ih => cases i <;> simp [updateAt, ih]

theorem findById_updateAt (f : Element → Element) (hf : ∀ e, (f e).id = e.id)
    (i : Nat) (doc : Document) (id : String) :
    findById (updateAt f i doc) id = findById doc id := by
  induction doc generalizing i with
  | nil => simp [updateAt]
  | cons e es ih => cases i <;> simp [updateAt, findById, ih, hf]

theorem getElementById_updateAt (f : Element → Element) (hf : ∀ e, (f e).id = e.id)
    (i : Nat) (doc : Document) (id : String) :
    getElementById (updateAt f i doc) id = getElementById doc id := by
  simp only [getElementById, findById_updateAt f hf]

theorem findById_some (doc : Document) (id : String) (i : Nat)
    (h : findById doc id = some i) :
    ∃ e, doc[i]? = some e ∧ e.id = id ∧ ∀ j, j < i → ∀ e2, doc[j]? = some e2 → e2.id ≠ id := by
  induction doc generalizing i with
  | nil => simp [findById] at h
  | cons e es ih =>
    simp only [findById] at h
    split at h
    · rename_i he
      cases h
      exact ⟨e, by simp, he, by intro j hj; omega⟩
    · rename_i he
      cases hr : findById es id with
      | none => simp [hr] at h
      | some k =>
        simp [hr] at h
        subst h
        obtain ⟨e1, h1, h2, h3⟩ := ih k hr
        refine ⟨e1, by simpa using h1, h2, ?_⟩
        intro j hj e2 hj2
        cases j with
        | zero => simp at hj2; subst hj2; exact he
        | succ j => exact h3 j (by omega) e2 (by simpa using hj2)

theorem findById_none (doc : Document) (id : String) :
    findById doc id = none ↔ ∀ e ∈ doc, e.id ≠ id := by
  induction doc with
  | nil => simp [findById]
  | cons e es ih =>
    simp only [findById]
    split
    · rename_i he; simp [he]
    · rename_i he; simp [he, ih]

theorem getElementById_some (doc : Document) (id : String) (i : Nat)
    (h : getElementById doc id = some i) :
    id ≠ "" ∧
    ∃ e, doc[i]? = some e ∧ e.id = id ∧ ∀ j, j < i → ∀ e2, doc[j]? = some e2 → e2.id ≠ id := by
  unfold getElementById at h
  split at h
  · cases h
  · rename_i hid
    exact ⟨hid, findById_some doc id i h⟩

theorem getElementById_none (doc : Document) (id : String) :
    getElementById doc id = none ↔ id = "" ∨ ∀ e ∈ doc, e.id ≠ id := by
  unfold getElementById
  split
  · rename_i hid; simp [hid]
  · rename_i hid; simp [hid, findById_none]

theorem setStyleColor_eq (H : Host) (doc : Document) (el : Nat) (value : String) :
    setStyleColor H doc el value =
      updateAt (fun e => { e with color := storedColor H e.color value }) el doc := by
  unfold setStyleColor
  by_cases hv : value = ""
  · simp [hv, storedColor]
  · cases hp : H.parseColor value with
    | none =>
      simp only [hv, if_false, storedColor, hp]
      exact (updateAt_self el doc).symm
    | some c => simp only [hv, if_false, storedColor, hp]

/-- The shape of `setText`: one update of the element found. -/
theorem setText_eq (H : Host) (doc : Document) (id text : String) (color : Option String) :
    setText H doc id text color =
      match getElementById doc id with
      | none => doc
      | some el =>
        updateAt (fun e => { e with
          textContent := text, innerHTML := escapeText text,
          color := storedColor H e.color (colorOrEmpty color) }) el doc := by
  unfold setText
  cases getElementById doc id with
  | none => rfl
  | some el => simp only [setTextContent, setStyleColor_eq, updateAt_updateAt]; rfl

theorem setText_getElem? (H : Host) (doc : Document) (id text : String) (color : Option String)
    (j : Nat) :
    (setText H doc id text color)[j]? =
      doc[j]?.map (fun e => if getElementById doc id = some j
        then { e with textContent := text, innerHTML := escapeText text,
                      color := storedColor H e.color (colorOrEmpty color) } else e) := by
  rw [setText_eq]
  cases h : getElementById doc id with
  | none => simp
  | some el =>
    simp only [updateAt_getElem?]
    by_cases hj : j = el
    · subst hj; simp
    · have : ¬ (el = j) := fun h => hj h.symm
      simp [hj, this]

theorem getElementById_setText (H : Host) (doc : Document) (id text : String)
    (color : Option String) (id2 : String) :
    getElementById (setText H doc id text color) id2 = getElementById doc id2 := by
  rw [setText_eq]
  cases h : getElementById doc id with
  | none => rfl
  | some el =>
    exact getElementById_updateAt
      (fun e => { e with textContent := text, innerHTML := escapeText text,
                         color := storedColor H e.color (colorOrEmpty color) })
      (fun _ => rfl) el doc id2

theorem setText_length (H : Host) (doc : Document) (id text : String) (color : Option String) :
    (setText H doc id text color).length = doc.length := by
  rw [setText_eq]
  cases h : getElementById doc id with
  | none => rfl
  | some el => exact updateAt_length _ _ _

/-- C7, as the code has it. `setText(id, text, color)` leaves the document
unchanged when `getElementById(id)` finds nothing: no element has the
identifier `id`, or `id` is empty. Otherwise, on the first element with that
identifier, it replaces the content by the text (`textContent` is `text`,
`innerHTML` the markup of that text) and assigns `color || ""` to
`style.color`: the empty string (an omitted or empty `color`) clears the
colour, a valid colour is stored as the CSS parser serialises it, and any
other string leaves `style.color` as it was. Every other element is as it
was, and so is the `id` of the element written. -/
theorem setText_frame (H : Host) (doc : Document) (id text : String) (color : Option String) :
    ((id = "" ∨ ∀ e ∈ doc, e.id ≠ id) → setText H doc id text color = doc) ∧
    (∀ el, getElementById doc id = some el →
      ∃ e, doc[el]? = some e ∧ e.id = id ∧
        (setText H doc id text color)[el]? =
          some { id := e.id, textContent := text, innerHTML := escapeText text,
                 color := (match color with
                   | none => ""
                   | some c =>
                     if c = "" then ""
                     else
                       match H.parseColor c with
                       | some v => v
                       | none => e.color) } ∧
        ∀ j, j ≠ el → (setText H doc id text color)[j]? = doc[j]?) ∧
    (setText H doc id text color).length = doc.length := by
  refine ⟨?_, ?_, setText_length H doc id text color⟩
  · intro h
    rw [setText_eq, (getElementById_none doc id).mpr h]
  · intro el hel
    obtain ⟨_, e, he, hid, _⟩ := getElementById_some doc id el hel
    refine ⟨e, he, hid, ?_, ?_⟩
    · rw [setText_getElem?, he]
      cases color with
      | none => simp [hel, colorOrEmpty, storedColor]
      | some c =>
        by_cases hc : c = ""
        · simp [hel, colorOrEmpty, storedColor, hc]
        · cases hp : H.parseColor c <;> simp [hel, colorOrEmpty, storedColor, hc, hp]
    · intro j hj
      rw [setText_getElem?]
      have : ¬ (el = j) := fun h => hj h.symm
      cases doc[j]? <;> simp [hel, this]

/-- C7 on the sample page: an omitted colour clears the colour of `price`, an
absent or empty identifier changes nothing. -/
theorem setText_frame_witness :
    getElementById samplePage "price" = some 0 ∧
    setText sampleHost samplePage "price" "2.5" none =
      [{ id := "price", textContent := "2.5", color := "", innerHTML := "2.5" },
       { id := "change", textContent := "", color := "", innerHTML := "" }] ∧
    setText sampleHost samplePage "absent" "2.5" none = samplePage ∧
    setText sampleHost samplePage "" "2.5" none = samplePage ∧
    (setText sampleHost samplePage "price" "2.5" none).length = samplePage.length :=
  ⟨by decide, by decide, by decide, by decide,
    (setText_frame sampleHost samplePage "price" "2.5" none).2.2⟩

/-- C7, counterexample. On the sample page `price` shows "1.0" in the danger
colour. `setText("price", "2 < 3", "not-a-colour")` leaves `style.color` as it
was, since the value is not valid CSS, where the claim has it become
"not-a-colour"; and besides `textContent` it changes `innerHTML`. -/
theorem setText_invalid_colour_counterexample :
    sampleHost.parseColor "not-a-colour" = none ∧
    setText sampleHost samplePage "price" "2 < 3" (some "not-a-colour") =
      [{ id := "price", textContent := "2 < 3", color := "var(--danger)",
         innerHTML := "2 &lt; 3" },
       { id := "change", textContent := "", color := "", innerHTML := "" }] :=
  ⟨by decide, by decide⟩

/-! ## Number.prototype.toFixed: the digits -/

theorem decimalValue_append_singleton (ds : List Char) (c : Char) :
    decimalValue (ds ++ [c]) = 10 * decimalValue ds + (c.toNat - 48) := by
  simp [decimalValue, List.foldl_append]

theorem digitChar_isDigit (m : Nat) (h : m < 10) :
    (Nat.digitChar m).isDigit = true ∧ (Nat.digitChar m).toNat - 48 = m := by
  interval_cases m <;> decide

theorem toDigitsCore_spec (fuel : Nat) : ∀ (n : Nat) (ds : List Char), n < fuel →
    ∃ pre, Nat.toDigitsCore 10 fuel n ds = pre ++ ds ∧ pre ≠ [] ∧
      (∀ c ∈ pre, c.isDigit = true) ∧ decimalValue pre = n := by
  induction fuel with
  | zero => intro n ds h; omega
  | succ fuel ih =>
    intro n ds h
    have hd := digitChar_isDigit (n % 10) (Nat.mod_lt _ (by decide))
    simp only [Nat.toDigitsCore]
    by_cases h0 : n / 10 = 0
    · refine ⟨[Nat.digitChar (n % 10)], by simp [h0], by simp, by simpa using hd.1, ?_⟩
      have hn : n % 10 = n := by omega
      simp only [decimalValue, List.foldl_cons, List.foldl_nil, hd.2]
      omega
    · have hlt : n / 10 < fuel := by omega
      obtain ⟨pre, h1, h2, h3, h4⟩ := ih (n / 10) (Nat.digitChar (n % 10) :: ds) hlt
      refine ⟨pre ++ [Nat.digitChar (n % 10)], by simp [h0, h1], by simp, ?_, ?_⟩
      · intro c hc
        rcases List.mem_append.mp hc with hc | hc
        · exact h3 c hc
        · simp at hc; subst hc; exact hd.1
      · rw [decimalValue_append_singleton, h4, hd.2]; omega

theorem toDigits_spec (n : Nat) :
    Nat.toDigits 10 n ≠ [] ∧ (∀ c ∈ Nat.toDigits 10 n, c.isDigit = true) ∧
      decimalValue (Nat.toDigits 10 n) = n := by
  obtain ⟨pre, h1, h2, h3, h4⟩ := toDigitsCore_spec (n + 1) n [] (by omega)
  simp only [List.append_nil] at h1
  simp only [Nat.toDigits, h1]
  exact ⟨h2, h3, h4⟩

theorem decimalValue_replicate_zero (z : Nat) (ds : List Char) :
    decimalValue (List.replicate z '0' ++ ds) = decimalValue ds := by
  induction z with
  | zero => simp
  | succ z ih =>
    simp only [List.replicate_succ, List.cons_append]
    simp only [decimalValue, List.foldl_cons] at ih ⊢
    exact ih

theorem toDigitsCore_eq (fuel : Nat) : ∀ (n : Nat) (ds : List Char), n < fuel →
    Nat.toDigitsCore 10 fuel n ds = Nat.toDigits 10 n ++ ds := by
  induction fuel using Nat.strong_induction_on with
  | _ fuel ih =>
    intro n ds h
    cases fuel with
    | zero => omega
    | succ k =>
      simp only [Nat.toDigits, Nat.toDigitsCore]
      by_cases h0 : n / 10 = 0
      · simp [h0]
      · simp only [h0, if_false]
        have h1 : n / 10 < n := by omega
        rw [ih k (by omega) (n / 10) _ (by omega), ih n (by omega) (n / 10) _ h1]
        simp

theorem toDigits_small (n : Nat) (h : n < 10) : Nat.toDigits 10 n = [Nat.digitChar n] := by
  have h0 : n / 10 = 0 := by omega
  have hm : n % 10 = n := by omega
  simp [Nat.toDigits, Nat.toDigitsCore, h0, hm]

theorem toDigits_step (n : Nat) (h : 10 ≤ n) :
    Nat.toDigits 10 n = Nat.toDigits 10 (n / 10) ++ [Nat.digitChar (n % 10)] := by
  have h0 : ¬ (n / 10 = 0) := by omega
  have h1 : n / 10 < n := by omega
  simp only [Nat.toDigits, Nat.toDigitsCore, h0, if_false]
  rw [toDigitsCore_eq n (n / 10) _ h1]
  rfl

/-- The digits of a positive number do not start with a zero. -/
theorem toDigits_head (n : Nat) (h : n ≠ 0) : (Nat.toDigits 10 n).head? ≠ some '0' := by
  induction n using Nat.strong_induction_on with
  | _ n ih =>
    by_cases hs : n < 10
    · rw [toDigits_small n hs]
      interval_cases n <;> first | exact absurd rfl h | decide
    · have hne : Nat.toDigits 10 (n / 10) ≠ [] := (toDigits_spec (n / 10)).1
      rw [toDigits_step n (by omega), List.head?_append_of_ne_nil _ hne]
      exact ih (n / 10) (by omega) (by omega)

/-- Splitting the digits of `n` before the last `f`: with more than `f` digits,
the front spells `n / 10^f` and the last `f` spell `n % 10^f`; with at most
`f` digits, `n < 10^f`. -/
theorem toDigits_split (f : Nat) : ∀ n : Nat,
    ((Nat.toDigits 10 n).length ≤ f → n < 10 ^ f) ∧
    (f < (Nat.toDigits 10 n).length →
      (Nat.toDigits 10 n).take ((Nat.toDigits 10 n).length - f) = Nat.toDigits 10 (n / 10 ^ f) ∧
      decimalValue ((Nat.toDigits 10 n).drop ((Nat.toDigits 10 n).length - f)) = n % 10 ^ f) := by
  induction f with
  | zero =>
    intro n
    refine ⟨fun h => ?_, fun _ => ?_⟩
    · have := List.length_pos.mpr (toDigits_spec n).1
      omega
    · simp [decimalValue, Nat.mod_one]
  | succ f ih =>
    intro n
    by_cases hs : n < 10
    · rw [toDigits_small n hs]
      refine ⟨fun _ => ?_, fun h => ?_⟩
      · calc n < 10 := hs
          _ ≤ 10 ^ (f + 1) := Nat.le_self_pow (by omega) 10
      · simp at h
    · have hstep := toDigits_step n (by omega)
      obtain ⟨ih1, ih2⟩ := ih (n / 10)
      have hlen : (Nat.toDigits 10 n).length = (Nat.toDigits 10 (n / 10)).length + 1 := by
        rw [hstep]; simp
      refine ⟨fun h => ?_, fun h => ?_⟩
      · have h1 := ih1 (by omega)
        have : n < 10 * 10 ^ f := by omega
        simpa [pow_succ, Nat.mul_comm] using this
      · obtain ⟨h2, h3⟩ := ih2 (by omega)
        have hk : (Nat.toDigits 10 n).length - (f + 1) = (Nat.toDigits 10 (n / 10)).length - f := by
          omega
        have hle : (Nat.toDigits 10 (n / 10)).length - f ≤ (Nat.toDigits 10 (n / 10)).length := by
          omega
        rw [hk, hstep, List.take_append_of_le_length hle, List.drop_append_of_le_length hle]
        refine ⟨?_, ?_⟩
        · rw [h2, Nat.div_div_eq_div_mul, pow_succ, Nat.mul_comm]
        · rw [decimalValue_append_singleton, h3,
            (digitChar_isDigit (n % 10) (Nat.mod_lt _ (by decide))).2, pow_succ,
            Nat.mul_comm (10 ^ f) 10, Nat.mod_mul]
          omega

theorem mem_drop_isDigit (n k : Nat) (c : Char) (h : c ∈ (Nat.toDigits 10 n).drop k) :
    c.isDigit = true :=
  (toDigits_spec n).2.1 c (List.mem_of_mem_drop h)

/-- The digits `fixedDigits` produces: the digits of `n / 10^f` and, when `f` is
not 0, a point and exactly `f` digits that spell `n % 10^f`. -/
theorem fixedDigits_spec (n f : Nat) :
    ∃ b : List Char,
      fixedDigits n f = Nat.toDigits 10 (n / 10 ^ f) ++ (if f = 0 then [] else '.' :: b) ∧
      b.length = f ∧ (∀ c ∈ b, c.isDigit = true) ∧ decimalValue b = n % 10 ^ f := by
  obtain ⟨hne, hdig, hval⟩ := toDigits_spec n
  by_cases hf : f = 0
  · subst hf
    exact ⟨[], by simp [fixedDigits], rfl, by simp, by simp [decimalValue, Nat.mod_one]⟩
  · have hlen : 0 < (Nat.toDigits 10 n).length := List.length_pos.mpr hne
    obtain ⟨hs1, hs2⟩ := toDigits_split f n
    by_cases hk : (Nat.toDigits 10 n).length ≤ f
    · have hlt : n < 10 ^ f := hs1 hk
      have hq : n / 10 ^ f = 0 := Nat.div_eq_of_lt hlt
      have hz : f + 1 - (Nat.toDigits 10 n).length = (f - (Nat.toDigits 10 n).length) + 1 := by
        omega
      refine ⟨List.replicate (f - (Nat.toDigits 10 n).length) '0' ++ Nat.toDigits 10 n,
        ?_, ?_, ?_, ?_⟩
      · simp only [fixedDigits, hf, hk, if_true, ne_eq, not_false_eq_true, if_false, hq, hz,
          List.replicate_succ, List.cons_append]
        simp [Nat.toDigits, Nat.toDigitsCore]
        rfl
      · simp; omega
      · intro c hc
        rcases List.mem_append.mp hc with hc | hc
        · rw [(List.mem_replicate.mp hc).2]; decide
        · exact hdig c hc
      · rw [decimalValue_replicate_zero, hval, Nat.mod_eq_of_lt hlt]
    · obtain ⟨h2, h3⟩ := hs2 (by omega)
      refine ⟨(Nat.toDigits 10 n).drop ((Nat.toDigits 10 n).length - f), ?_, ?_, ?_, h3⟩
      · simp only [fixedDigits, hf, hk, ne_eq, not_false_eq_true, if_true, if_false, h2]
      · simp; omega
      · intro c hc
        exact mem_drop_isDigit n _ c hc

theorem geTenPow21_false_iff (mant : Nat) (exp : Int) :
    geTenPow21 mant exp = false ↔ magnitude mant exp < 10 ^ 21 := by
  cases exp with
  | ofNat k =>
    simp only [geTenPow21, magnitude, decide_eq_false_iff_not, not_le, Int.ofNat_eq_coe, zpow_natCast]
    rw [← Nat.cast_lt (α := ℚ)]
    push_cast
    rfl
  | negSucc k =>
    simp only [geTenPow21, magnitude, decide_eq_false_iff_not, not_le, zpow_negSucc]
    rw [← Nat.cast_lt (α := ℚ)]
    push_cast
    have hD : (0 : ℚ) < 2 ^ (k + 1) := by positivity
    rw [← div_eq_mul_inv, div_lt_iff₀ hD]
    norm_num

/-- The integer `roundScaled` picks is nearest to `mant * 2^exp * 10^f`, the larger of two. -/
theorem roundScaled_nearest (mant : Nat) (exp : Int) (f : Nat) :
    ((roundScaled mant exp f : Nat) : ℚ) - 1 / 2 ≤ magnitude mant exp * 10 ^ f ∧
      magnitude mant exp * 10 ^ f < ((roundScaled mant exp f : Nat) : ℚ) + 1 / 2 := by
  cases exp with
  | ofNat k =>
    simp only [roundScaled, magnitude, Int.ofNat_eq_coe, zpow_natCast]
    push_cast
    constructor <;> linarith
  | negSucc k =>
    simp only [roundScaled, magnitude, zpow_negSucc]
    set D : Nat := 2 ^ (k + 1) with hDdef
    set N : Nat := mant * 10 ^ f with hNdef
    have hDpos : 0 < D := by positivity
    have h1 : (N * 2 + D) / (2 * D) * (2 * D) ≤ N * 2 + D := Nat.div_mul_le_self _ _
    have h2 : N * 2 + D < ((N * 2 + D) / (2 * D) + 1) * (2 * D) := by
      have := Nat.lt_div_mul_add (a := N * 2 + D) (b := 2 * D) (by omega)
      linarith [Nat.add_mul ((N * 2 + D) / (2 * D)) 1 (2 * D)]
    set q : Nat := (N * 2 + D) / (2 * D) with hq
    have h1q : ((q : ℚ)) * (2 * D) ≤ N * 2 + D := by exact_mod_cast h1
    have h2q : ((N : ℚ)) * 2 + D < (q + 1) * (2 * D) := by exact_mod_cast h2
    have hDq : (0 : ℚ) < D := by exact_mod_cast hDpos
    have hval : (mant : ℚ) * ((2 : ℚ) ^ (k + 1))⁻¹ * 10 ^ f = (N : ℚ) / D := by
      rw [hNdef, hDdef]; push_cast; field_simp
    rw [hval]
    constructor
    · rw [le_div_iff₀ hDq]; linarith
    · rw [div_lt_iff₀ hDq]; linarith

/-! ## shared/time.js: formatTime and formatNumber -/

/-- C6, as the code has it. `formatTime(ts)` returns "--" when `ts` is undefined
or null, when `ts` is any other falsy value (the number 0, the epoch, among
them), and when `new Date(ts)` is an invalid date; for every integer number of
milliseconds in the Date range other than 0 it returns the zh-TW locale string
of that date. When the conversion of `ts` to a primitive throws (an object
with an own property `toString`), so does `formatTime`. -/
theorem formatTime_spec (H : Host) :
    formatTime H .undefined = .ok "--" ∧
    formatTime H .null = .ok "--" ∧
    (∀ ts : JsVal, ts.truthy = false → formatTime H ts = .ok "--") ∧
    formatTime H (.num (JsNum.ofInt 0)) = .ok "--" ∧
    (∀ ts : JsVal, newDate H ts = .ok none → formatTime H ts = .ok "--") ∧
    (∀ t : Int, t ≠ 0 → -8640000000000000 ≤ t → t ≤ 8640000000000000 →
      formatTime H (.num (JsNum.ofInt t)) = .ok (H.toLocaleString t)) ∧
    (∀ (ts : JsVal) (e : JsError), ts.truthy = true → newDate H ts = .error e →
      formatTime H ts = .error e) := by
  refine ⟨rfl, rfl, ?_, rfl, ?_, ?_, ?_⟩
  · intro ts h
    simp [formatTime, h]
  · intro ts h
    simp [formatTime, h]
  · intro t h0 hlo hhi
    have hna : t.natAbs ≠ 0 := by omega
    have hle : t.natAbs ≤ 8640000000000000 := by omega
    have hclip : timeClip (decide (t < 0)) t.natAbs 0 = some t := by
      show timeClip (decide (t < 0)) t.natAbs (Int.ofNat 0) = some t
      simp only [timeClip, pow_zero, mul_one]
      rw [if_neg (by omega)]
      by_cases hneg : t < 0
      · simp only [hneg, decide_True, if_true, Option.some.injEq]; omega
      · simp only [hneg, decide_False, Option.some.injEq]
        rw [if_neg (by simp)]
        omega
    simp [formatTime, JsNum.ofInt, JsVal.truthy, hna, newDate, hclip]
  · intro ts e ht h
    simp [formatTime, ht, h]

/-- C6 at the timestamp 1700000000000. -/
theorem formatTime_spec_witness :
    formatTime sampleHost (.num (JsNum.ofInt 1700000000000)) = .ok "date:1700000000000" :=
  (formatTime_spec sampleHost).2.2.2.2.2.1 1700000000000 (by decide) (by decide) (by decide)

/-- C6, counterexample. The timestamp 0 is a valid date (its time value is 0,
which the host renders as a locale string), yet `formatTime(0)` returns the
fallback. -/
theorem formatTime_epoch_counterexample :
    newDate sampleHost (.num (JsNum.ofInt 0)) = .ok (some 0) ∧
    sampleHost.toLocaleString 0 = "date:0" ∧
    formatTime sampleHost (.num (JsNum.ofInt 0)) = .ok "--" :=
  ⟨rfl, rfl, rfl⟩

/-- C5, as the code has it. `formatNumber(num, digits)` returns "--" when `num`
is NaN and throws a TypeError when `num` is not a Number (undefined, null, a
string, ...). For a finite Number of magnitude below 10^21 and `digits` at
most 100 (4 when omitted) it rounds the magnitude: with `n` the integer nearest
to `|num| * 10^digits`, the larger of two, it returns "-" when `num < 0`, then
the digits of `n / 10^digits` and, when `digits` is not 0, a point and exactly
`digits` digits that spell `n % 10^digits`. The digits of the integer part are
its decimal numeral: they spell it and do not start with 0 unless it is 0.
So -0.125 with 2 digits gives "-0.13", -2.5 with 0 digits "-3", and a
negative number that rounds to zero "-0.00". -/
theorem formatNumber_spec (H : Host) :
    (∀ digits, formatNumber H (.num .nan) digits = .ok "--") ∧
    (∀ v digits, (∀ x, v ≠ .num x) → formatNumber H v digits = .error .typeError) ∧
    (∀ neg mant exp digits, digits.getD 4 ≤ 100 → magnitude mant exp < 10 ^ 21 →
      ∃ (n : Nat) (b : List Char),
        (n : ℚ) - 1 / 2 ≤ magnitude mant exp * 10 ^ digits.getD 4 ∧
        magnitude mant exp * 10 ^ digits.getD 4 < (n : ℚ) + 1 / 2 ∧
        formatNumber H (.num (.fin neg mant exp)) digits =
          .ok ((if neg && mant != 0 then "-" else "") ++
            String.mk (Nat.toDigits 10 (n / 10 ^ digits.getD 4) ++
              (if digits.getD 4 = 0 then [] else '.' :: b))) ∧
        b.length = digits.getD 4 ∧ (∀ c ∈ b, c.isDigit = true) ∧
        decimalValue b = n % 10 ^ digits.getD 4) ∧
    (∀ q : Nat, Nat.toDigits 10 q ≠ [] ∧ (∀ c ∈ Nat.toDigits 10 q, c.isDigit = true) ∧
      decimalValue (Nat.toDigits 10 q) = q ∧
      (q ≠ 0 → (Nat.toDigits 10 q).head? ≠ some '0')) ∧
    formatNumber H (.num .nan) none = .ok "--" ∧
    formatNumber H (.num (.fin false 694995494495815 (-49))) (some 2) = .ok "1.23" ∧
    formatNumber H (.num (.fin true 1 (-3))) (some 2) = .ok "-0.13" ∧
    formatNumber H (.num (.fin true 5 (-1))) (some 0) = .ok "-3" ∧
    formatNumber H (.num (.fin true 1 (-20))) (some 2) = .ok "-0.00" := by
  refine ⟨fun _ => rfl, ?_, ?_, ?_, rfl, rfl, rfl, rfl, rfl⟩
  · intro v digits hv
    cases v with
    | num x => exact absurd rfl (hv x)
    | _ => rfl
  · intro neg mant exp digits hd hm
    obtain ⟨b, h1, h2, h3, h4⟩ := fixedDigits_spec (roundScaled mant exp (digits.getD 4))
      (digits.getD 4)
    have hr := roundScaled_nearest mant exp (digits.getD 4)
    refine ⟨roundScaled mant exp (digits.getD 4), b, hr.1, hr.2, ?_, h2, h3, h4⟩
    have hge : geTenPow21 mant exp = false := (geTenPow21_false_iff mant exp).mpr hm
    have hnot : ¬ (digits.getD 4 > 100) := by omega
    simp only [formatNumber, numberIsNaN, JsVal.callToFixed, JsNum.toFixed, hge, h1]
    simp [hnot]
  · intro q
    obtain ⟨h1, h2, h3⟩ := toDigits_spec q
    exact ⟨h1, h2, h3, toDigits_head q⟩

/-- C5 at -0.125 with 2 digits. -/
theorem formatNumber_spec_witness :
    ∃ (n : Nat) (b : List Char),
      (n : ℚ) - 1 / 2 ≤ magnitude 1 (-3) * 10 ^ (some 2).getD 4 ∧
      magnitude 1 (-3) * 10 ^ (some 2).getD 4 < (n : ℚ) + 1 / 2 ∧
      formatNumber sampleHost (.num (.fin true 1 (-3))) (some 2) =
        .ok ((if true && (1 : Nat) != 0 then "-" else "") ++
          String.mk (Nat.toDigits 10 (n / 10 ^ (some 2).getD 4) ++
            (if (some 2).getD 4 = 0 then [] else '.' :: b))) ∧
      b.length = (some 2).getD 4 ∧ (∀ c ∈ b, c.isDigit = true) ∧
      decimalValue b = n % 10 ^ (some 2).getD 4 :=
  (formatNumber_spec sampleHost).2.2.1 true 1 (-3) (some 2) (by decide)
    (by norm_num [magnitude])

/-- C5, counterexample. For undefined, null and a string `formatNumber` throws a
TypeError instead of returning "--", and for Infinity it returns "Infinity",
which has no fractional digits. -/
theorem formatNumber_counterexample :
    formatNumber sampleHost .undefined none = .error .typeError ∧
    formatNumber sampleHost .null none = .error .typeError ∧
    formatNumber sampleHost (.str "abc") (some 2) = .error .typeError ∧
    formatNumber sampleHost (.num (.inf false)) (some 2) = .ok "Infinity" :=
  ⟨rfl, rfl, rfl, rfl⟩

/-! ## The loader monad: rules -/

@[simp] theorem Js.bind_eq {α β : Type} (m : Js α) (f : α → Js β) :
    (m >>= f) = Js.andThen m f := rfl
@[simp] theorem Js.pure_eq {α : Type} (a : α) : (pure a : Js α) = Js.ret a := rfl
@[simp] theorem Js.throw_eq {α : Type} (e : JsError) : (throw e : Js α) = Js.raise e := rfl
@[simp] theorem Js.tryCatch_eq {α : Type} (b : Js α) (h : JsError → Js α) :
    (tryCatch b h) = Js.attempt b h := rfl

theorem Js.andThen_getElement {β : Type} (id : String) (f : Option Nat → Js β) (w : World) :
    Js.andThen (getElement id) f w = f (getElementById w.doc id) w := rfl

theorem Js.noWait_ret {α : Type} (a : α) : (Js.ret a).NoWait := by constructor; intro w; simp [Js.ret]
theorem Js.noWait_raise {α : Type} (e : JsError) : (Js.raise e : Js α).NoWait := by
  constructor
  intro w; simp [Js.raise]
theorem Js.noWait_lift {α : Type} (x : Except JsError α) : (Js.lift x).NoWait := by
  constructor
  intro w; cases x <;> simp [Js.lift]
theorem Js.noWait_andThen {α β : Type} (m : Js α) (f : α → Js β) (hm : m.NoWait)
    (hf : ∀ a, (f a).NoWait) : (m.andThen f).NoWait := by
  constructor
  intro w
  have h1 := hm.out w
  simp only [Js.andThen]
  rcases hmw : m w with ⟨c, w1⟩
  rw [hmw] at h1
  cases c with
  | done a => exact (hf a).out w1
  | thrown e => simp
  | pending => simp at h1
theorem Js.noWait_attempt {α : Type} (m : Js α) (h : JsError → Js α) (hm : m.NoWait)
    (hh : ∀ e, (h e).NoWait) : (m.attempt h).NoWait := by
  constructor
  intro w
  have h1 := hm.out w
  simp only [Js.attempt]
  rcases hmw : m w with ⟨c, w1⟩
  rw [hmw] at h1
  cases c with
  | done a => simp
  | thrown e => exact (hh e).out w1
  | pending => simp at h1
theorem Js.noWait_ite {α : Type} (c : Prop) [Decidable c] (a b : Js α) (ha : a.NoWait)
    (hb : b.NoWait) : (if c then a else b).NoWait := by
  split <;> assumption
theorem noWait_fetch (net : Net) (path : String) (h : (net path).isPending = false) :
    (fetch net path).NoWait := by
  constructor
  intro w
  simp only [fetch]
  cases hn : net path <;> simp_all [FetchResult.isPending]
theorem noWait_json (res : Response) : res.json.NoWait := by
  constructor
  intro w; simp only [Response.json]; cases res.body <;> simp
theorem noWait_getElement (id : String) : (getElement id).NoWait := by
  constructor
  intro w; simp [getElement]
theorem noWait_assignInnerHTML (H : Host) (b : Option Nat) (s : String) :
    (assignInnerHTML H b s).NoWait := by
  constructor
  intro w; cases b <;> simp [assignInnerHTML]
theorem noWait_setTextJs (H : Host) (id t : String) (c : Option String) :
    (setTextJs H id t c).NoWait := by
  constructor
  intro w; simp [setTextJs]
theorem noWait_consoleError (m : String) (e : JsError) : (consoleError m e).NoWait := by
  constructor
  intro w; simp [consoleError]
theorem noWait_logError (m : String) (e : JsError) : (logError m e).NoWait :=
  noWait_consoleError m e

theorem Js.noThrow_ret {α : Type} (a : α) : (Js.ret a).NoThrow := by constructor; intro w e; simp [Js.ret]
theorem Js.noThrow_andThen {α β : Type} (m : Js α) (f : α → Js β) (hm : m.NoThrow)
    (hf : ∀ a, (f a).NoThrow) : (m.andThen f).NoThrow := by
  constructor
  intro w e
  have h1 := hm.out w
  simp only [Js.andThen]
  rcases hmw : m w with ⟨c, w1⟩
  rw [hmw] at h1
  cases c with
  | done a => exact (hf a).out w1 e
  | thrown e1 => exact absurd rfl (h1 e1)
  | pending => simp
theorem Js.noThrow_attempt {α : Type} (m : Js α) (h : JsError → Js α)
    (hh : ∀ e, (h e).NoThrow) : (m.attempt h).NoThrow := by
  constructor
  intro w e
  simp only [Js.attempt]
  rcases hmw : m w with ⟨c, w1⟩
  cases c with
  | done a => simp
  | thrown e1 => exact (hh e1).out w1 e
  | pending => simp
theorem noThrow_assignInnerHTML (H : Host) (el : Nat) (s : String) :
    (assignInnerHTML H (some el) s).NoThrow := by
  constructor
  intro w e; simp [assignInnerHTML]
theorem noThrow_setTextJs (H : Host) (id t : String) (c : Option String) :
    (setTextJs H id t c).NoThrow := by
  constructor
  intro w e; simp [setTextJs]
theorem noThrow_consoleError (m : String) (e : JsError) : (consoleError m e).NoThrow := by
  constructor
  intro w e1; simp [consoleError]
theorem noThrow_logError (m : String) (e : JsError) : (logError m e).NoThrow :=
  noThrow_consoleError m e

theorem Js.noDone_raise {α : Type} (e : JsError) : (Js.raise e : Js α).NoDone := by
  constructor
  intro w a; simp [Js.raise]
theorem Js.noDone_andThen {α β : Type} (m : Js α) (f : α → Js β)
    (hf : ∀ a, (f a).NoDone) : (m.andThen f).NoDone := by
  constructor
  intro w b
  simp only [Js.andThen]
  rcases hmw : m w with ⟨c, w1⟩
  cases c with
  | done a => exact (hf a).out w1 b
  | thrown e1 => simp
  | pending => simp
theorem Js.noDone_ite {α : Type} (c : Prop) [Decidable c] (a b : Js α) (ha : a.NoDone)
    (hb : b.NoDone) : (if c then a else b).NoDone := by
  split <;> assumption
theorem noDone_assignInnerHTML (H : Host) (s : String) :
    (assignInnerHTML H none s).NoDone := by
  constructor
  intro w a; simp [assignInnerHTML]

/-- A `try` whose body neither returns nor waits and whose handler starts by
assigning to a null table body rejects with a TypeError. -/
theorem Js.attempt_null_body (H : Host) (m : Js Unit) (s : String) (k : JsError → Js Unit)
    (hd : m.NoDone) (hw : m.NoWait) (w : World) :
    (Js.attempt m (fun e => Js.andThen (assignInnerHTML H none s) (fun _ => k e)) w).1 =
      .thrown .typeError := by
  have h1 := hd.out w
  have h2 := hw.out w
  simp only [Js.attempt]
  rcases hmw : m w with ⟨c, w1⟩
  rw [hmw] at h1 h2
  cases c with
  | done a => exact absurd rfl (h1 a)
  | thrown e1 => simp [Js.andThen, assignInnerHTML]
  | pending => simp at h2

theorem Js.keepsIds_ret {α : Type} (a : α) : (Js.ret a).KeepsIds := by constructor; intro w id; rfl
theorem Js.keepsIds_raise {α : Type} (e : JsError) : (Js.raise e : Js α).KeepsIds := by
  constructor
  intro w id; rfl
theorem Js.keepsIds_lift {α : Type} (x : Except JsError α) : (Js.lift x).KeepsIds := by
  constructor
  intro w id; cases x <;> rfl
theorem Js.keepsIds_andThen {α β : Type} (m : Js α) (f : α → Js β) (hm : m.KeepsIds)
    (hf : ∀ a, (f a).KeepsIds) : (m.andThen f).KeepsIds := by
  constructor
  intro w id
  have h1 := hm.out w id
  simp only [Js.andThen]
  rcases hmw : m w with ⟨c, w1⟩
  rw [hmw] at h1
  cases c with
  | done a => rw [(hf a).out w1 id]; exact h1
  | thrown e => exact h1
  | pending => exact h1
theorem Js.keepsIds_attempt {α : Type} (m : Js α) (h : JsError → Js α) (hm : m.KeepsIds)
    (hh : ∀ e, (h e).KeepsIds) : (m.attempt h).KeepsIds := by
  constructor
  intro w id
  have h1 := hm.out w id
  simp only [Js.attempt]
  rcases hmw : m w with ⟨c, w1⟩
  rw [hmw] at h1
  cases c with
  | done a => exact h1
  | thrown e => rw [(hh e).out w1 id]; exact h1
  | pending => exact h1
theorem Js.keepsIds_ite {α : Type} (c : Prop) [Decidable c] (a b : Js α) (ha : a.KeepsIds)
    (hb : b.KeepsIds) : (if c then a else b).KeepsIds := by
  split <;> assumption
theorem keepsIds_fetch (net : Net) (path : String) : (fetch net path).KeepsIds := by
  constructor
  intro w id
  simp only [fetch]
  cases net path <;> rfl
theorem keepsIds_json (res : Response) : res.json.KeepsIds := by
  constructor
  intro w id; simp only [Response.json]; cases res.body <;> rfl
theorem keepsIds_getElement (id : String) : (getElement id).KeepsIds := by constructor; intro w id; rfl
theorem keepsIds_assignInnerHTML (H : Host) (b : Option Nat) (s : String) :
    (assignInnerHTML H b s).KeepsIds := by
  constructor
  intro w id
  cases b with
  | none => rfl
  | some el =>
    exact getElementById_updateAt
      (fun e => { e with innerHTML := s, textContent := H.htmlText s }) (fun _ => rfl) el w.doc id
theorem keepsIds_setTextJs (H : Host) (id t : String) (c : Option String) :
    (setTextJs H id t c).KeepsIds := by
  constructor
  intro w id2; exact getElementById_setText H w.doc id t c id2
theorem keepsIds_consoleError (m : String) (e : JsError) : (consoleError m e).KeepsIds := by
  constructor
  intro w id; rfl
theorem keepsIds_logError (m : String) (e : JsError) : (logError m e).KeepsIds :=
  keepsIds_consoleError m e
/-! ## The loaders: when they wait, return and throw -/

set_option maxRecDepth 8000 in
theorem noWait_loadBalances (H : Host) (net : Net)
    (h : (net "/account/balance").isPending = false) : (loadBalances H net).NoWait := by
  unfold loadBalances
  simp only [Js.bind_eq, Js.pure_eq, Js.throw_eq, Js.tryCatch_eq, tryCatchThe]
  repeat (first
    | intro _
    | apply Js.noWait_andThen | apply Js.noWait_attempt | apply Js.noWait_ite
    | exact Js.noWait_lift _ | exact noWait_setTextJs _ _ _ _
    | exact noWait_fetch _ _ h
    | exact Js.noWait_ret _ | exact Js.noWait_raise _
    | exact noWait_json _ | exact noWait_getElement _ | exact noWait_assignInnerHTML _ _ _
    | exact noWait_consoleError _ _ | exact noWait_logError _ _)

set_option maxRecDepth 8000 in
theorem keepsIds_loadBalances (H : Host) (net : Net) : (loadBalances H net).KeepsIds := by
  unfold loadBalances
  simp only [Js.bind_eq, Js.pure_eq, Js.throw_eq, Js.tryCatch_eq, tryCatchThe]
  repeat (first
    | intro _
    | apply Js.keepsIds_andThen | apply Js.keepsIds_attempt | apply Js.keepsIds_ite
    | exact Js.keepsIds_lift _ | exact keepsIds_setTextJs _ _ _ _
    | exact Js.keepsIds_ret _ | exact Js.keepsIds_raise _
    | exact keepsIds_fetch _ _ | exact keepsIds_json _ | exact keepsIds_getElement _
    | exact keepsIds_assignInnerHTML _ _ _
    | exact keepsIds_consoleError _ _ | exact keepsIds_logError _ _)

theorem pending_loadBalances (H : Host) (net : Net) (w : World)
    (h : (net "/account/balance").isPending = true) : (loadBalances H net w).1 = .pending := by
  have hp : net "/account/balance" = .pending := by
    cases hn : net "/account/balance" <;> simp_all [FetchResult.isPending]
  simp [loadBalances, getElement, Js.andThen, Js.attempt, fetch, hp]

theorem noThrow_loadBalances (H : Host) (net : Net) : (loadBalances H net).NoThrow := by
  unfold loadBalances
  simp only [Js.bind_eq, Js.pure_eq, Js.throw_eq, Js.tryCatch_eq, tryCatchThe]
  apply Js.noThrow_attempt
  repeat (first
    | intro _
    | apply Js.noThrow_andThen
    | exact noThrow_assignInnerHTML _ _ _ | exact noThrow_setTextJs _ _ _ _
    | exact noThrow_consoleError _ _ | exact noThrow_logError _ _)

theorem noWait_loadPrice (H : Host) (net : Net)
    (h : (net "/market/ticker/QRLUSDT").isPending = false) : (loadPrice H net).NoWait := by
  unfold loadPrice
  simp only [Js.bind_eq, Js.pure_eq, Js.throw_eq, Js.tryCatch_eq, tryCatchThe]
  repeat (first
    | intro _
    | apply Js.noWait_andThen | apply Js.noWait_attempt | apply Js.noWait_ite
    | exact Js.noWait_lift _ | exact noWait_setTextJs _ _ _ _
    | exact noWait_fetch _ _ h
    | exact Js.noWait_ret _ | exact Js.noWait_raise _
    | exact noWait_json _ | exact noWait_getElement _ | exact noWait_assignInnerHTML _ _ _
    | exact noWait_consoleError _ _ | exact noWait_logError _ _)

theorem keepsIds_loadPrice (H : Host) (net : Net) : (loadPrice H net).KeepsIds := by
  unfold loadPrice
  simp only [Js.bind_eq, Js.pure_eq, Js.throw_eq, Js.tryCatch_eq, tryCatchThe]
  repeat (first
    | intro _
    | apply Js.keepsIds_andThen | apply Js.keepsIds_attempt | apply Js.keepsIds_ite
    | exact Js.keepsIds_lift _ | exact keepsIds_setTextJs _ _ _ _
    | exact Js.keepsIds_ret _ | exact Js.keepsIds_raise _
    | exact keepsIds_fetch _ _ | exact keepsIds_json _ | exact keepsIds_getElement _
    | exact keepsIds_assignInnerHTML _ _ _
    | exact keepsIds_consoleError _ _ | exact keepsIds_logError _ _)

theorem pending_loadPrice (H : Host) (net : Net) (w : World)
    (h : (net "/market/ticker/QRLUSDT").isPending = true) : (loadPrice H net w).1 = .pending := by
  have hp : net "/market/ticker/QRLUSDT" = .pending := by
    cases hn : net "/market/ticker/QRLUSDT" <;> simp_all [FetchResult.isPending]
  simp [loadPrice, getElement, Js.andThen, Js.attempt, fetch, hp]

theorem noThrow_loadPrice (H : Host) (net : Net) : (loadPrice H net).NoThrow := by
  unfold loadPrice
  simp only [Js.bind_eq, Js.pure_eq, Js.throw_eq, Js.tryCatch_eq, tryCatchThe]
  apply Js.noThrow_attempt
  repeat (first
    | intro _
    | apply Js.noThrow_andThen
    | exact noThrow_assignInnerHTML _ _ _ | exact noThrow_setTextJs _ _ _ _
    | exact noThrow_consoleError _ _ | exact noThrow_logError _ _)

theorem noWait_loadBookTicker (H : Host) (net : Net)
    (h : (net "/market/book-ticker/QRLUSDT").isPending = false) : (loadBookTicker H net).NoWait := by
  unfold loadBookTicker
  simp only [Js.bind_eq, Js.pure_eq, Js.throw_eq, Js.tryCatch_eq, tryCatchThe]
  repeat (first
    | intro _
    | apply Js.noWait_andThen | apply Js.noWait_attempt | apply Js.noWait_ite
    | exact Js.noWait_lift _ | exact noWait_setTextJs _ _ _ _
    | exact noWait_fetch _ _ h
    | exact Js.noWait_ret _ | exact Js.noWait_raise _
    | exact noWait_json _ | exact noWait_getElement _ | exact noWait_assignInnerHTML _ _ _
    | exact noWait_consoleError _ _ | exact noWait_logError _ _)

theorem keepsIds_loadBookTicker (H : Host) (net : Net) : (loadBookTicker H net).KeepsIds := by
  unfold loadBookTicker
  simp only [Js.bind_eq, Js.pure_eq, Js.throw_eq, Js.tryCatch_eq, tryCatchThe]
  repeat (first
    | intro _
    | apply Js.keepsIds_andThen | apply Js.keepsIds_attempt | apply Js.keepsIds_ite
    | exact Js.keepsIds_lift _ | exact keepsIds_setTextJs _ _ _ _
    | exact Js.keepsIds_ret _ | exact Js.keepsIds_raise _
    | exact keepsIds_fetch _ _ | exact keepsIds_json _ | exact keepsIds_getElement _
    | exact keepsIds_assignInnerHTML _ _ _
    | exact keepsIds_consoleError _ _ | exact keepsIds_logError _ _)

theorem pending_loadBookTicker (H : Host) (net : Net) (w : World)
    (h : (net "/market/book-ticker/QRLUSDT").isPending = true) : (loadBookTicker H net w).1 = .pending := by
  have hp : net "/market/book-ticker/QRLUSDT" = .pending := by
    cases hn : net "/market/book-ticker/QRLUSDT" <;> simp_all [FetchResult.isPending]
  simp [loadBookTicker, getElement, Js.andThen, Js.attempt, fetch, hp]

theorem noThrow_loadBookTicker (H : Host) (net : Net) : (loadBookTicker H net).NoThrow := by
  unfold loadBookTicker
  simp only [Js.bind_eq, Js.pure_eq, Js.throw_eq, Js.tryCatch_eq, tryCatchThe]
  apply Js.noThrow_attempt
  repeat (first
    | intro _
    | apply Js.noThrow_andThen
    | exact noThrow_assignInnerHTML _ _ _ | exact noThrow_setTextJs _ _ _ _
    | exact noThrow_consoleError _ _ | exact noThrow_logError _ _)

theorem noWait_loadBookTickerMarket (H : Host) (net : Net)
    (h : (net "/market/book-ticker/QRLUSDT").isPending = false) : (loadBookTickerMarket H net).NoWait := by
  unfold loadBookTickerMarket
  simp only [Js.bind_eq, Js.pure_eq, Js.throw_eq, Js.tryCatch_eq, tryCatchThe]
  repeat (first
    | intro _
    | apply Js.noWait_andThen | apply Js.noWait_attempt | apply Js.noWait_ite
    | exact Js.noWait_lift _ | exact noWait_setTextJs _ _ _ _
    | exact noWait_fetch _ _ h
    | exact Js.noWait_ret _ | exact Js.noWait_raise _
    | exact noWait_json _ | exact noWait_getElement _ | exact noWait_assignInnerHTML _ _ _
    | exact noWait_consoleError _ _ | exact noWait_logError _ _)

theorem keepsIds_loadBookTickerMarket (H : Host) (net : Net) : (loadBookTickerMarket H net).KeepsIds := by
  unfold loadBookTickerMarket
  simp only [Js.bind_eq, Js.pure_eq, Js.throw_eq, Js.tryCatch_eq, tryCatchThe]
  repeat (first
    | intro _
    | apply Js.keepsIds_andThen | apply Js.keepsIds_attempt | apply Js.keepsIds_ite
    | exact Js.keepsIds_lift _ | exact keepsIds_setTextJs _ _ _ _
    | exact Js.keepsIds_ret _ | exact Js.keepsIds_raise _
    | exact keepsIds_fetch _ _ | exact keepsIds_json _ | exact keepsIds_getElement _
    | exact keepsIds_assignInnerHTML _ _ _
    | exact keepsIds_consoleError _ _ | exact keepsIds_logError _ _)

theorem pending_loadBookTickerMarket (H : Host) (net : Net) (w : World)
    (h : (net "/market/book-ticker/QRLUSDT").isPending = true) : (loadBookTickerMarket H net w).1 = .pending := by
  have hp : net "/market/book-ticker/QRLUSDT" = .pending := by
    cases hn : net "/market/book-ticker/QRLUSDT" <;> simp_all [FetchResult.isPending]
  simp [loadBookTickerMarket, getElement, Js.andThen, Js.attempt, fetch, hp]

theorem noThrow_loadBookTickerMarket (H : Host) (net : Net) : (loadBookTickerMarket H net).NoThrow := by
  unfold loadBookTickerMarket
  simp only [Js.bind_eq, Js.pure_eq, Js.throw_eq, Js.tryCatch_eq, tryCatchThe]
  apply Js.noThrow_attempt
  repeat (first
    | intro _
    | apply Js.noThrow_andThen
    | exact noThrow_assignInnerHTML _ _ _ | exact noThrow_setTextJs _ _ _ _
    | exact noThrow_consoleError _ _ | exact noThrow_logError _ _)

theorem noWait_loadExchangeInfo (H : Host) (net : Net)
    (h : (net "/market/exchange-info?symbol=QRLUSDT").isPending = false) : (loadExchangeInfo H net).NoWait := by
  unfold loadExchangeInfo
  simp only [Js.bind_eq, Js.pure_eq, Js.throw_eq, Js.tryCatch_eq, tryCatchThe]
  repeat (first
    | intro _
    | apply Js.noWait_andThen | apply Js.noWait_attempt | apply Js.noWait_ite
    | exact Js.noWait_lift _ | exact noWait_setTextJs _ _ _ _
    | exact noWait_fetch _ _ h
    | exact Js.noWait_ret _ | exact Js.noWait_raise _
    | exact noWait_json _ | exact noWait_getElement _ | exact noWait_assignInnerHTML _ _ _
    | exact noWait_consoleError _ _ | exact noWait_logError _ _)

theorem keepsIds_loadExchangeInfo (H : Host) (net : Net) : (loadExchangeInfo H net).KeepsIds := by
  unfold loadExchangeInfo
  simp only [Js.bind_eq, Js.pure_eq, Js.throw_eq, Js.tryCatch_eq, tryCatchThe]
  repeat (first
    | intro _
    | apply Js.keepsIds_andThen | apply Js.keepsIds_attempt | apply Js.keepsIds_ite
    | exact Js.keepsIds_lift _ | exact keepsIds_setTextJs _ _ _ _
    | exact Js.keepsIds_ret _ | exact Js.keepsIds_raise _
    | exact keepsIds_fetch _ _ | exact keepsIds_json _ | exact keepsIds_getElement _
    | exact keepsIds_assignInnerHTML _ _ _
    | exact keepsIds_consoleError _ _ | exact keepsIds_logError _ _)

theorem pending_loadExchangeInfo (H : Host) (net : Net) (w : World)
    (h : (net "/market/exchange-info?symbol=QRLUSDT").isPending = true) : (loadExchangeInfo H net w).1 = .pending := by
  have hp : net "/market/exchange-info?symbol=QRLUSDT" = .pending := by
    cases hn : net "/market/exchange-info?symbol=QRLUSDT" <;> simp_all [FetchResult.isPending]
  simp [loadExchangeInfo, getElement, Js.andThen, Js.attempt, fetch, hp]

theorem notThrown_loadExchangeInfo (H : Host) (net : Net) (w : World) (el : Nat)
    (hel : getElementById w.doc "info-body" = some el) (e : JsError) :
    (loadExchangeInfo H net w).1 ≠ .thrown e := by
  unfold loadExchangeInfo
  simp only [Js.bind_eq, Js.pure_eq, Js.throw_eq, Js.tryCatch_eq, tryCatchThe]
  rw [Js.andThen_getElement, hel]
  refine (Js.noThrow_attempt _ _ ?_).out w e
  repeat (first
    | intro _
    | apply Js.noThrow_andThen
    | exact noThrow_assignInnerHTML _ _ _ | exact noThrow_setTextJs _ _ _ _
    | exact noThrow_consoleError _ _ | exact noThrow_logError _ _)

theorem nullBody_loadExchangeInfo (H : Host) (net : Net) (w : World)
    (hel : getElementById w.doc "info-body" = none)
    (h : (net "/market/exchange-info?symbol=QRLUSDT").isPending = false) :
    (loadExchangeInfo H net w).1 = .thrown .typeError := by
  unfold loadExchangeInfo
  simp only [Js.bind_eq, Js.pure_eq, Js.throw_eq, Js.tryCatch_eq, tryCatchThe]
  rw [Js.andThen_getElement, hel]
  apply Js.attempt_null_body
  ·
    repeat (first
      | intro _
      | apply Js.noDone_ite | apply Js.noDone_andThen
      | exact noDone_assignInnerHTML _ _ | exact Js.noDone_raise _)
  ·
    repeat (first
      | intro _
      | apply Js.noWait_andThen | apply Js.noWait_attempt | apply Js.noWait_ite
      | exact Js.noWait_lift _ | exact noWait_setTextJs _ _ _ _
      | exact noWait_fetch _ _ h
      | exact Js.noWait_ret _ | exact Js.noWait_raise _
      | exact noWait_json _ | exact noWait_getElement _ | exact noWait_assignInnerHTML _ _ _
      | exact noWait_consoleError _ _ | exact noWait_logError _ _)

theorem noWait_loadAggTrades (H : Host) (net : Net)
    (h : (net "/market/agg-trades/QRLUSDT?limit=10").isPending = false) : (loadAggTrades H net).NoWait := by
  unfold loadAggTrades
  simp only [Js.bind_eq, Js.pure_eq, Js.throw_eq, Js.tryCatch_eq, tryCatchThe]
  repeat (first
    | intro _
    | apply Js.noWait_andThen | apply Js.noWait_attempt | apply Js.noWait_ite
    | exact Js.noWait_lift _ | exact noWait_setTextJs _ _ _ _
    | exact noWait_fetch _ _ h
    | exact Js.noWait_ret _ | exact Js.noWait_raise _
    | exact noWait_json _ | exact noWait_getElement _ | exact noWait_assignInnerHTML _ _ _
    | exact noWait_consoleError _ _ | exact noWait_logError _ _)

theorem keepsIds_loadAggTrades (H : Host) (net : Net) : (loadAggTrades H net).KeepsIds := by
  unfold loadAggTrades
  simp only [Js.bind_eq, Js.pure_eq, Js.throw_eq, Js.tryCatch_eq, tryCatchThe]
  repeat (first
    | intro _
    | apply Js.keepsIds_andThen | apply Js.keepsIds_attempt | apply Js.keepsIds_ite
    | exact Js.keepsIds_lift _ | exact keepsIds_setTextJs _ _ _ _
    | exact Js.keepsIds_ret _ | exact Js.keepsIds_raise _
    | exact keepsIds_fetch _ _ | exact keepsIds_json _ | exact keepsIds_getElement _
    | exact keepsIds_assignInnerHTML _ _ _
    | exact keepsIds_consoleError _ _ | exact keepsIds_logError _ _)

theorem pending_loadAggTrades (H : Host) (net : Net) (w : World)
    (h : (net "/market/agg-trades/QRLUSDT?limit=10").isPending = true) : (loadAggTrades H net w).1 = .pending := by
  have hp : net "/market/agg-trades/QRLUSDT?limit=10" = .pending := by
    cases hn : net "/market/agg-trades/QRLUSDT?limit=10" <;> simp_all [FetchResult.isPending]
  simp [loadAggTrades, getElement, Js.andThen, Js.attempt, fetch, hp]

theorem notThrown_loadAggTrades (H : Host) (net : Net) (w : World) (el : Nat)
    (hel : getElementById w.doc "agg-body" = some el) (e : JsError) :
    (loadAggTrades H net w).1 ≠ .thrown e := by
  unfold loadAggTrades
  simp only [Js.bind_eq, Js.pure_eq, Js.throw_eq, Js.tryCatch_eq, tryCatchThe]
  rw [Js.andThen_getElement, hel]
  refine (Js.noThrow_attempt _ _ ?_).out w e
  repeat (first
    | intro _
    | apply Js.noThrow_andThen
    | exact noThrow_assignInnerHTML _ _ _ | exact noThrow_setTextJs _ _ _ _
    | exact noThrow_consoleError _ _ | exact noThrow_logError _ _)

theorem nullBody_loadAggTrades (H : Host) (net : Net) (w : World)
    (hel : getElementById w.doc "agg-body" = none)
    (h : (net "/market/agg-trades/QRLUSDT?limit=10").isPending = false) :
    (loadAggTrades H net w).1 = .thrown .typeError := by
  unfold loadAggTrades
  simp only [Js.bind_eq, Js.pure_eq, Js.throw_eq, Js.tryCatch_eq, tryCatchThe]
  rw [Js.andThen_getElement, hel]
  apply Js.attempt_null_body
  ·
    repeat (first
      | intro _
      | apply Js.noDone_ite | apply Js.noDone_andThen
      | exact noDone_assignInnerHTML _ _ | exact Js.noDone_raise _)
  ·
    repeat (first
      | intro _
      | apply Js.noWait_andThen | apply Js.noWait_attempt | apply Js.noWait_ite
      | exact Js.noWait_lift _ | exact noWait_setTextJs _ _ _ _
      | exact noWait_fetch _ _ h
      | exact Js.noWait_ret _ | exact Js.noWait_raise _
      | exact noWait_json _ | exact noWait_getElement _ | exact noWait_assignInnerHTML _ _ _
      | exact noWait_consoleError _ _ | exact noWait_logError _ _)

theorem noWait_loadKlines (H : Host) (net : Net)
    (h : (net "/market/klines/QRLUSDT?interval=1m&limit=5").isPending = false) : (loadKlines H net).NoWait := by
  unfold loadKlines
  simp only [Js.bind_eq, Js.pure_eq, Js.throw_eq, Js.tryCatch_eq, tryCatchThe]
  repeat (first
    | intro _
    | apply Js.noWait_andThen | apply Js.noWait_attempt | apply Js.noWait_ite
    | exact Js.noWait_lift _ | exact noWait_setTextJs _ _ _ _
    | exact noWait_fetch _ _ h
    | exact Js.noWait_ret _ | exact Js.noWait_raise _
    | exact noWait_json _ | exact noWait_getElement _ | exact noWait_assignInnerHTML _ _ _
    | exact noWait_consoleError _ _ | exact noWait_logError _ _)

theorem keepsIds_loadKlines (H : Host) (net : Net) : (loadKlines H net).KeepsIds := by
  unfold loadKlines
  simp only [Js.bind_eq, Js.pure_eq, Js.throw_eq, Js.tryCatch_eq, tryCatchThe]
  repeat (first
    | intro _
    | apply Js.keepsIds_andThen | apply Js.keepsIds_attempt | apply Js.keepsIds_ite
    | exact Js.keepsIds_lift _ | exact keepsIds_setTextJs _ _ _ _
    | exact Js.keepsIds_ret _ | exact Js.keepsIds_raise _
    | exact keepsIds_fetch _ _ | exact keepsIds_json _ | exact keepsIds_getElement _
    | exact keepsIds_assignInnerHTML _ _ _
    | exact keepsIds_consoleError _ _ | exact keepsIds_logError _ _)

theorem pending_loadKlines (H : Host) (net : Net) (w : World)
    (h : (net "/market/klines/QRLUSDT?interval=1m&limit=5").isPending = true) : (loadKlines H net w).1 = .pending := by
  have hp : net "/market/klines/QRLUSDT?interval=1m&limit=5" = .pending := by
    cases hn : net "/market/klines/QRLUSDT?interval=1m&limit=5" <;> simp_all [FetchResult.isPending]
  simp [loadKlines, getElement, Js.andThen, Js.attempt, fetch, hp]

theorem notThrown_loadKlines (H : Host) (net : Net) (w : World) (el : Nat)
    (hel : getElementById w.doc "kline-body" = some el) (e : JsError) :
    (loadKlines H net w).1 ≠ .thrown e := by
  unfold loadKlines
  simp only [Js.bind_eq, Js.pure_eq, Js.throw_eq, Js.tryCatch_eq, tryCatchThe]
  rw [Js.andThen_getElement, hel]
  refine (Js.noThrow_attempt _ _ ?_).out w e
  repeat (first
    | intro _
    | apply Js.noThrow_andThen
    | exact noThrow_assignInnerHTML _ _ _ | exact noThrow_setTextJs _ _ _ _
    | exact noThrow_consoleError _ _ | exact noThrow_logError _ _)

theorem nullBody_loadKlines (H : Host) (net : Net) (w : World)
    (hel : getElementById w.doc "kline-body" = none)
    (h : (net "/market/klines/QRLUSDT?interval=1m&limit=5").isPending = false) :
    (loadKlines H net w).1 = .thrown .typeError := by
  unfold loadKlines
  simp only [Js.bind_eq, Js.pure_eq, Js.throw_eq, Js.tryCatch_eq, tryCatchThe]
  rw [Js.andThen_getElement, hel]
  apply Js.attempt_null_body
  ·
    repeat (first
      | intro _
      | apply Js.noDone_ite | apply Js.noDone_andThen
      | exact noDone_assignInnerHTML _ _ | exact Js.noDone_raise _)
  ·
    repeat (first
      | intro _
      | apply Js.noWait_andThen | apply Js.noWait_attempt | apply Js.noWait_ite
      | exact Js.noWait_lift _ | exact noWait_setTextJs _ _ _ _
      | exact noWait_fetch _ _ h
      | exact Js.noWait_ret _ | exact Js.noWait_raise _
      | exact noWait_json _ | exact noWait_getElement _ | exact noWait_assignInnerHTML _ _ _
      | exact noWait_consoleError _ _ | exact noWait_logError _ _)

theorem noWait_loadOrders (H : Host) (net : Net)
    (h : (net "/account/orders").isPending = false) : (loadOrders H net).NoWait := by
  unfold loadOrders
  simp only [Js.bind_eq, Js.pure_eq, Js.throw_eq, Js.tryCatch_eq, tryCatchThe]
  repeat (first
    | intro _
    | apply Js.noWait_andThen | apply Js.noWait_attempt | apply Js.noWait_ite
    | exact Js.noWait_lift _ | exact noWait_setTextJs _ _ _ _
    | exact noWait_fetch _ _ h
    | exact Js.noWait_ret _ | exact Js.noWait_raise _
    | exact noWait_json _ | exact noWait_getElement _ | exact noWait_assignInnerHTML _ _ _
    | exact noWait_consoleError _ _ | exact noWait_logError _ _)

theorem keepsIds_loadOrders (H : Host) (net : Net) : (loadOrders H net).KeepsIds := by
  unfold loadOrders
  simp only [Js.bind_eq, Js.pure_eq, Js.throw_eq, Js.tryCatch_eq, tryCatchThe]
  repeat (first
    | intro _
    | apply Js.keepsIds_andThen | apply Js.keepsIds_attempt | apply Js.keepsIds_ite
    | exact Js.keepsIds_lift _ | exact keepsIds_setTextJs _ _ _ _
    | exact Js.keepsIds_ret _ | exact Js.keepsIds_raise _
    | exact keepsIds_fetch _ _ | exact keepsIds_json _ | exact keepsIds_getElement _
    | exact keepsIds_assignInnerHTML _ _ _
    | exact keepsIds_consoleError _ _ | exact keepsIds_logError _ _)

theorem pending_loadOrders (H : Host) (net : Net) (w : World)
    (h : (net "/account/orders").isPending = true) : (loadOrders H net w).1 = .pending := by
  have hp : net "/account/orders" = .pending := by
    cases hn : net "/account/orders" <;> simp_all [FetchResult.isPending]
  simp [loadOrders, getElement, Js.andThen, Js.attempt, fetch, hp]

theorem notThrown_loadOrders (H : Host) (net : Net) (w : World) (el : Nat)
    (hel : getElementById w.doc "orders-body" = some el) (e : JsError) :
    (loadOrders H net w).1 ≠ .thrown e := by
  unfold loadOrders
  simp only [Js.bind_eq, Js.pure_eq, Js.throw_eq, Js.tryCatch_eq, tryCatchThe]
  rw [Js.andThen_getElement, hel]
  refine (Js.noThrow_attempt _ _ ?_).out w e
  repeat (first
    | intro _
    | apply Js.noThrow_andThen
    | exact noThrow_assignInnerHTML _ _ _ | exact noThrow_setTextJs _ _ _ _
    | exact noThrow_consoleError _ _ | exact noThrow_logError _ _)

theorem nullBody_loadOrders (H : Host) (net : Net) (w : World)
    (hel : getElementById w.doc "orders-body" = none)
    (h : (net "/account/orders").isPending = false) :
    (loadOrders H net w).1 = .thrown .typeError := by
  unfold loadOrders
  simp only [Js.bind_eq, Js.pure_eq, Js.throw_eq, Js.tryCatch_eq, tryCatchThe]
  rw [Js.andThen_getElement, hel]
  apply Js.attempt_null_body
  ·
    repeat (first
      | intro _
      | apply Js.noDone_ite | apply Js.noDone_andThen
      | exact noDone_assignInnerHTML _ _ | exact Js.noDone_raise _)
  ·
    repeat (first
      | intro _
      | apply Js.noWait_andThen | apply Js.noWait_attempt | apply Js.noWait_ite
      | exact Js.noWait_lift _ | exact noWait_setTextJs _ _ _ _
      | exact noWait_fetch _ _ h
      | exact Js.noWait_ret _ | exact Js.noWait_raise _
      | exact noWait_json _ | exact noWait_getElement _ | exact noWait_assignInnerHTML _ _ _
      | exact noWait_consoleError _ _ | exact noWait_logError _ _)

theorem noWait_loadTrades (H : Host) (net : Net)
    (h : (net "/account/trades").isPending = false) : (loadTrades H net).NoWait := by
  unfold loadTrades
  simp only [Js.bind_eq, Js.pure_eq, Js.throw_eq, Js.tryCatch_eq, tryCatchThe]
  repeat (first
    | intro _
    | apply Js.noWait_andThen | apply Js.noWait_attempt | apply Js.noWait_ite
    | exact Js.noWait_lift _ | exact noWait_setTextJs _ _ _ _
    | exact noWait_fetch _ _ h
    | exact Js.noWait_ret _ | exact Js.noWait_raise _
    | exact noWait_json _ | exact noWait_getElement _ | exact noWait_assignInnerHTML _ _ _
    | exact noWait_consoleError _ _ | exact noWait_logError _ _)

theorem keepsIds_loadTrades (H : Host) (net : Net) : (loadTrades H net).KeepsIds := by
  unfold loadTrades
  simp only [Js.bind_eq, Js.pure_eq, Js.throw_eq, Js.tryCatch_eq, tryCatchThe]
  repeat (first
    | intro _
    | apply Js.keepsIds_andThen | apply Js.keepsIds_attempt | apply Js.keepsIds_ite
    | exact Js.keepsIds_lift _ | exact keepsIds_setTextJs _ _ _ _
    | exact Js.keepsIds_ret _ | exact Js.keepsIds_raise _
    | exact keepsIds_fetch _ _ | exact keepsIds_json _ | exact keepsIds_getElement _
    | exact keepsIds_assignInnerHTML _ _ _
    | exact keepsIds_consoleError _ _ | exact keepsIds_logError _ _)

theorem pending_loadTrades (H : Host) (net : Net) (w : World)
    (h : (net "/account/trades").isPending = true) : (loadTrades H net w).1 = .pending := by
  have hp : net "/account/trades" = .pending := by
    cases hn : net "/account/trades" <;> simp_all [FetchResult.isPending]
  simp [loadTrades, getElement, Js.andThen, Js.attempt, fetch, hp]

theorem notThrown_loadTrades (H : Host) (net : Net) (w : World) (el : Nat)
    (hel : getElementById w.doc "trades-body" = some el) (e : JsError) :
    (loadTrades H net w).1 ≠ .thrown e := by
  unfold loadTrades
  simp only [Js.bind_eq, Js.pure_eq, Js.throw_eq, Js.tryCatch_eq, tryCatchThe]
  rw [Js.andThen_getElement, hel]
  refine (Js.noThrow_attempt _ _ ?_).out w e
  repeat (first
    | intro _
    | apply Js.noThrow_andThen
    | exact noThrow_assignInnerHTML _ _ _ | exact noThrow_setTextJs _ _ _ _
    | exact noThrow_consoleError _ _ | exact noThrow_logError _ _)

theorem nullBody_loadTrades (H : Host) (net : Net) (w : World)
    (hel : getElementById w.doc "trades-body" = none)
    (h : (net "/account/trades").isPending = false) :
    (loadTrades H net w).1 = .thrown .typeError := by
  unfold loadTrades
  simp only [Js.bind_eq, Js.pure_eq, Js.throw_eq, Js.tryCatch_eq, tryCatchThe]
  rw [Js.andThen_getElement, hel]
  apply Js.attempt_null_body
  ·
    repeat (first
      | intro _
      | apply Js.noDone_ite | apply Js.noDone_andThen
      | exact noDone_assignInnerHTML _ _ | exact Js.noDone_raise _)
  ·
    repeat (first
      | intro _
      | apply Js.noWait_andThen | apply Js.noWait_attempt | apply Js.noWait_ite
      | exact Js.noWait_lift _ | exact noWait_setTextJs _ _ _ _
      | exact noWait_fetch _ _ h
      | exact Js.noWait_ret _ | exact Js.noWait_raise _
      | exact noWait_json _ | exact noWait_getElement _ | exact noWait_assignInnerHTML _ _ _
      | exact noWait_consoleError _ _ | exact noWait_logError _ _)

/-! ## C2: which loaders can reject -/

/-- C2, as the code has it. While its fetch is pending the promise of a loader
is pending. Once the fetch has settled (whatever the outcome: a rejected fetch,
any status, an unparsable or arbitrarily shaped body), a loader that writes text
fields fulfils on every page, and a loader that writes a table body fulfils on
every page that has its table-body element and rejects with a TypeError on a
page without it. -/
theorem loaders_settle (H : Host) (net : Net) (w : World) :
    ((loadBalances H net w).1 =
      if (net "/account/balance").isPending then .pending else .done ()) ∧
    ((loadPrice H net w).1 =
      if (net "/market/ticker/QRLUSDT").isPending then .pending else .done ()) ∧
    ((loadBookTicker H net w).1 =
      if (net "/market/book-ticker/QRLUSDT").isPending then .pending else .done ()) ∧
    ((loadBookTickerMarket H net w).1 =
      if (net "/market/book-ticker/QRLUSDT").isPending then .pending else .done ()) ∧
    ((loadExchangeInfo H net w).1 =
      if (net "/market/exchange-info?symbol=QRLUSDT").isPending then .pending
      else if (getElementById w.doc "info-body").isSome then .done () else .thrown .typeError) ∧
    ((loadAggTrades H net w).1 =
      if (net "/market/agg-trades/QRLUSDT?limit=10").isPending then .pending
      else if (getElementById w.doc "agg-body").isSome then .done () else .thrown .typeError) ∧
    ((loadKlines H net w).1 =
      if (net "/market/klines/QRLUSDT?interval=1m&limit=5").isPending then .pending
      else if (getElementById w.doc "kline-body").isSome then .done () else .thrown .typeError) ∧
    ((loadOrders H net w).1 =
      if (net "/account/orders").isPending then .pending
      else if (getElementById w.doc "orders-body").isSome then .done () else .thrown .typeError) ∧
    ((loadTrades H net w).1 =
      if (net "/account/trades").isPending then .pending
      else if (getElementById w.doc "trades-body").isSome then .done () else .thrown .typeError) := by
  have settled : ∀ c : Completion Unit, c ≠ .pending → (∀ e, c ≠ .thrown e) → c = .done () := by
    intro c h1 h2
    cases c with
    | done a => rfl
    | thrown e => exact absurd rfl (h2 e)
    | pending => exact absurd rfl h1
  refine ⟨?_, ?_, ?_, ?_, ?_, ?_, ?_, ?_, ?_⟩
  · cases h : (net "/account/balance").isPending with
    | true => simpa using pending_loadBalances H net w h
    | false =>
      simpa using settled _ ((noWait_loadBalances H net h).out w) ((noThrow_loadBalances H net).out w)
  · cases h : (net "/market/ticker/QRLUSDT").isPending with
    | true => simpa using pending_loadPrice H net w h
    | false =>
      simpa using settled _ ((noWait_loadPrice H net h).out w) ((noThrow_loadPrice H net).out w)
  · cases h : (net "/market/book-ticker/QRLUSDT").isPending with
    | true => simpa using pending_loadBookTicker H net w h
    | false =>
      simpa using settled _ ((noWait_loadBookTicker H net h).out w) ((noThrow_loadBookTicker H net).out w)
  · cases h : (net "/market/book-ticker/QRLUSDT").isPending with
    | true => simpa using pending_loadBookTickerMarket H net w h
    | false =>
      simpa using settled _ ((noWait_loadBookTickerMarket H net h).out w) ((noThrow_loadBookTickerMarket H net).out w)
  · cases h : (net "/market/exchange-info?symbol=QRLUSDT").isPending with
    | true => simpa using pending_loadExchangeInfo H net w h
    | false =>
      cases hel : getElementById w.doc "info-body" with
      | none => simpa using nullBody_loadExchangeInfo H net w hel h
      | some el =>
        simpa using settled _ ((noWait_loadExchangeInfo H net h).out w) (notThrown_loadExchangeInfo H net w el hel)
  · cases h : (net "/market/agg-trades/QRLUSDT?limit=10").isPending with
    | true => simpa using pending_loadAggTrades H net w h
    | false =>
      cases hel : getElementById w.doc "agg-body" with
      | none => simpa using nullBody_loadAggTrades H net w hel h
      | some el =>
        simpa using settled _ ((noWait_loadAggTrades H net h).out w) (notThrown_loadAggTrades H net w el hel)
  · cases h : (net "/market/klines/QRLUSDT?interval=1m&limit=5").isPending with
    | true => simpa using pending_loadKlines H net w h
    | false =>
      cases hel : getElementById w.doc "kline-body" with
      | none => simpa using nullBody_loadKlines H net w hel h
      | some el =>
        simpa using settled _ ((noWait_loadKlines H net h).out w) (notThrown_loadKlines H net w el hel)
  · cases h : (net "/account/orders").isPending with
    | true => simpa using pending_loadOrders H net w h
    | false =>
      cases hel : getElementById w.doc "orders-body" with
      | none => simpa using nullBody_loadOrders H net w hel h
      | some el =>
        simpa using settled _ ((noWait_loadOrders H net h).out w) (notThrown_loadOrders H net w el hel)
  · cases h : (net "/account/trades").isPending with
    | true => simpa using pending_loadTrades H net w h
    | false =>
      cases hel : getElementById w.doc "trades-body" with
      | none => simpa using nullBody_loadTrades H net w hel h
      | some el =>
        simpa using settled _ ((noWait_loadTrades H net h).out w) (notThrown_loadTrades H net w el hel)

/-- C2 at a 200 answer whose body is `null`, on the dashboard page: `loadTrades`
fulfils. -/
theorem loaders_settle_witness :
    (loadTrades sampleHost (netAll (.response 200 (.json .null))) dashboardWorld).1 = .done () :=
  (loaders_settle sampleHost (netAll (.response 200 (.json .null)))
    dashboardWorld).2.2.2.2.2.2.2.2.trans (by decide)

/-- C2, counterexample. On a page without the element `trades-body`, `loadTrades`
rejects: the assignment to `body.innerHTML` in the `catch` block throws. It does
so for a 200 response with an empty object, for a 500 response and for a
rejected fetch. -/
theorem loadTrades_rejects_without_table_body :
    (loadTrades sampleHost (netAll (.response 200 (.json (.obj [])))) pageWithoutTrades).1 =
      .thrown .typeError ∧
    (loadTrades sampleHost (netAll (.response 500 .unparsable)) pageWithoutTrades).1 =
      .thrown .typeError ∧
    (loadTrades sampleHost (netAll .rejected) pageWithoutTrades).1 = .thrown .typeError :=
  ⟨by decide, by decide, by decide⟩

/-! ## C8: refreshAll -/

theorem promiseAll_done_iff (cs : List (Completion Unit)) :
    promiseAll cs = .done () ↔ ∀ c ∈ cs, c = .done () := by
  induction cs with
  | nil => simp [promiseAll]
  | cons c cs ih =>
    cases c with
    | done a => simp [promiseAll, ih]
    | thrown e => simp [promiseAll]
    | pending =>
      simp only [promiseAll, List.mem_cons, forall_eq_or_imp]
      cases promiseAll cs <;> simp

theorem promiseAll_thrown_iff (cs : List (Completion Unit)) :
    (∃ e, promiseAll cs = .thrown e) ↔ ∃ c ∈ cs, ∃ e, c = .thrown e := by
  induction cs with
  | nil => simp [promiseAll]
  | cons c cs ih =>
    cases c with
    | done a => simp [promiseAll, ih]
    | thrown e => simp [promiseAll]
    | pending =>
      simp only [promiseAll, List.mem_cons, exists_eq_or_imp]
      rw [← ih]
      cases promiseAll cs <;> simp

theorem callAll_length (ls : List (Js Unit)) (w : World) :
    (callAll ls w).1.length = ls.length := by
  induction ls generalizing w with
  | nil => rfl
  | cons l ls ih => simp [callAll, ih]

/-- Every promise `callAll` collects is the promise of one of the functions, called
on a world in which `getElementById` finds what it finds at the start. -/
theorem callAll_mem (ls : List (Js Unit)) (hk : ∀ l ∈ ls, l.KeepsIds) (w : World)
    (c : Completion Unit) (hc : c ∈ (callAll ls w).1) :
    ∃ l ∈ ls, ∃ w1 : World,
      (∀ id, getElementById w1.doc id = getElementById w.doc id) ∧ c = (l w1).1 := by
  induction ls generalizing w with
  | nil => simp [callAll] at hc
  | cons l ls ih =>
    simp only [callAll, List.mem_cons] at hc
    rcases hc with hc | hc
    · exact ⟨l, List.mem_cons_self _ _, w, fun _ => rfl, hc⟩
    · obtain ⟨l2, hl2, w1, hw1, hc1⟩ :=
        ih (fun l1 h1 => hk l1 (List.mem_cons_of_mem _ h1)) (l w).2 hc
      refine ⟨l2, List.mem_cons_of_mem _ hl2, w1, ?_, hc1⟩
      intro id
      rw [hw1 id, (hk l (List.mem_cons_self _ _)).out w id]

/-- C8, as the code has it. `refreshAll` calls the nine loaders (each issues its
fetch at once) and awaits `Promise.all` of their promises: its promise fulfils
exactly when every loader's promise has fulfilled, and it rejects exactly when
some loader's promise has rejected, whether or not the others have settled.
When `loadDepth` never rejects and the page has the five table bodies, no
loader rejects and `refreshAll` never rejects. -/
theorem refreshAll_spec (H : Host) (net : Net) (loadDepth : Js Unit) (w : World) :
    (loaderCalls H net loadDepth).length = 9 ∧
    (callAll (loaderCalls H net loadDepth) w).1.length = 9 ∧
    (refreshAll H (netAll .pending) depthDone w).2.log = w.log ++
      [Event.fetch "/account/balance", Event.fetch "/market/ticker/QRLUSDT",
        Event.fetch "/market/book-ticker/QRLUSDT",
        Event.fetch "/market/exchange-info?symbol=QRLUSDT",
        Event.fetch "/market/agg-trades/QRLUSDT?limit=10",
        Event.fetch "/market/klines/QRLUSDT?interval=1m&limit=5",
        Event.fetch "/account/orders", Event.fetch "/account/trades"] ∧
    ((refreshAll H net loadDepth w).1 = .done () ↔
      ∀ c ∈ (callAll (loaderCalls H net loadDepth) w).1, c = .done ()) ∧
    ((∃ e, (refreshAll H net loadDepth w).1 = .thrown e) ↔
      ∃ c ∈ (callAll (loaderCalls H net loadDepth) w).1, ∃ e, c = .thrown e) ∧
    (loadDepth.NoThrow → loadDepth.KeepsIds →
      (∀ id ∈ tableBodyIds, (getElementById w.doc id).isSome = true) →
      ∀ e, (refreshAll H net loadDepth w).1 ≠ .thrown e) := by
  refine ⟨rfl, by rw [callAll_length]; rfl, ?_, promiseAll_done_iff _, promiseAll_thrown_iff _, ?_⟩
  · simp [refreshAll, callAll, loaderCalls, netAll, depthDone, Js.ret, loadBalances, loadPrice,
      loadBookTicker, loadExchangeInfo, loadAggTrades, loadKlines, loadOrders, loadTrades,
      getElement, Js.andThen, Js.attempt, fetch]
  · intro hdt hdk hbodies e he
    have hkeep : ∀ l ∈ loaderCalls H net loadDepth, l.KeepsIds := by
      intro l hl
      simp only [loaderCalls, List.mem_cons, List.mem_singleton, List.not_mem_nil, or_false] at hl
      rcases hl with h | h | h | h | h | h | h | h | h <;> subst h
      · exact keepsIds_loadBalances H net
      · exact keepsIds_loadPrice H net
      · exact keepsIds_loadBookTicker H net
      · exact keepsIds_loadExchangeInfo H net
      · exact hdk
      · exact keepsIds_loadAggTrades H net
      · exact keepsIds_loadKlines H net
      · exact keepsIds_loadOrders H net
      · exact keepsIds_loadTrades H net
    obtain ⟨c, hc, e1, hce⟩ := (promiseAll_thrown_iff _).mp ⟨e, he⟩
    obtain ⟨l, hl, w1, hw1, hcl⟩ := callAll_mem _ hkeep w c hc
    have hbody : ∀ id ∈ tableBodyIds, ∃ el, getElementById w1.doc id = some el := by
      intro id hid
      rw [hw1 id]
      exact Option.isSome_iff_exists.mp (hbodies id hid)
    rw [hce] at hcl
    simp only [loaderCalls, List.mem_cons, List.mem_singleton, List.not_mem_nil, or_false] at hl
    rcases hl with h | h | h | h | h | h | h | h | h <;> subst h
    · exact (noThrow_loadBalances H net).out w1 e1 hcl.symm
    · exact (noThrow_loadPrice H net).out w1 e1 hcl.symm
    · exact (noThrow_loadBookTicker H net).out w1 e1 hcl.symm
    · obtain ⟨el, hel⟩ := hbody "info-body" (by decide)
      exact notThrown_loadExchangeInfo H net w1 el hel e1 hcl.symm
    · exact hdt.out w1 e1 hcl.symm
    · obtain ⟨el, hel⟩ := hbody "agg-body" (by decide)
      exact notThrown_loadAggTrades H net w1 el hel e1 hcl.symm
    · obtain ⟨el, hel⟩ := hbody "kline-body" (by decide)
      exact notThrown_loadKlines H net w1 el hel e1 hcl.symm
    · obtain ⟨el, hel⟩ := hbody "orders-body" (by decide)
      exact notThrown_loadOrders H net w1 el hel e1 hcl.symm
    · obtain ⟨el, hel⟩ := hbody "trades-body" (by decide)
      exact notThrown_loadTrades H net w1 el hel e1 hcl.symm

theorem refreshAll_spec_witness :
    ∀ e, (refreshAll sampleHost (netAll (.response 500 .unparsable)) depthDone dashboardWorld).1 ≠
      .thrown e :=
  (refreshAll_spec sampleHost (netAll (.response 500 .unparsable)) depthDone
    dashboardWorld).2.2.2.2.2 (Js.noThrow_ret ()) (Js.keepsIds_ret ()) (by decide)

/-- C8, counterexample. On a page without the element `trades-body`, with every
request answered 200, `refreshAll` rejects; and it rejects while the promise of
`loadOrders` is still pending, so it settles before every loader has settled. -/
theorem refreshAll_rejects :
    (refreshAll sampleHost (netAll (.response 200 (.json (.obj [])))) depthDone
      pageWithoutTrades).1 = .thrown .typeError ∧
    (refreshAll sampleHost netOrdersPending depthDone pageWithoutTrades).1 = .thrown .typeError ∧
    (callAll (loaderCalls sampleHost netOrdersPending depthDone) pageWithoutTrades).1 =
      [.done (), .done (), .done (), .done (), .done (), .done (), .done (), .pending,
        .thrown .typeError] :=
  ⟨by decide, by decide, by decide⟩

/-! ## C3: the 503 answers -/

theorem setInnerHTML_getElem? (H : Host) (doc : Document) (el : Nat) (html : String) (j : Nat) :
    (setInnerHTML H doc el html)[j]? =
      if j = el then
        doc[j]?.map (fun e => { e with innerHTML := html, textContent := H.htmlText html })
      else doc[j]? :=
  updateAt_getElem? _ el j doc

theorem storedColor_danger (H : Host) (old : String) :
    storedColor H old "var(--danger)" = "var(--danger)" := by
  simp [storedColor, H.parseColor_danger]

theorem storedColor_success (H : Host) (old : String) :
    storedColor H old "var(--success)" = "var(--success)" := by
  simp [storedColor, H.parseColor_success]

theorem storedColor_warning (H : Host) (old : String) :
    storedColor H old "var(--warning)" = "var(--warning)" := by
  simp [storedColor, H.parseColor_warning]

/-- C3. A 503 answer: `loadBalances` fulfils having set the text of `qrl-total`
and of `usdt-total` to "NEED API KEY" in the warning colour, and `loadOrders`
(on a page with `orders-body`) fulfils having set that table body to the one
colspan-6 hint row "需要 API key 才能讀取". In both, the log holds the fetch and
nothing else, so the body is not read and nothing is logged to the console, and
every other element, and the `id` and colour of the table body, is as it was;
the error placeholders are not written. -/
theorem status_503_needs_api_key (H : Host) (net : Net) (w : World) (b : Body) :
    (net "/account/balance" = .response 503 b →
      (loadBalances H net w).1 = .done () ∧
      (loadBalances H net w).2.log = w.log ++ [Event.fetch "/account/balance"] ∧
      (loadBalances H net w).2.doc.length = w.doc.length ∧
      ∀ j, (loadBalances H net w).2.doc[j]? = w.doc[j]?.map (fun e =>
        if getElementById w.doc "qrl-total" = some j ∨ getElementById w.doc "usdt-total" = some j
        then { e with textContent := "NEED API KEY", innerHTML := "NEED API KEY",
                      color := "var(--warning)" }
        else e)) ∧
    (net "/account/orders" = .response 503 b →
      ∀ el, getElementById w.doc "orders-body" = some el →
        (loadOrders H net w).1 = .done () ∧
        (loadOrders H net w).2.log = w.log ++ [Event.fetch "/account/orders"] ∧
        (loadOrders H net w).2.doc.length = w.doc.length ∧
        ∀ j, (loadOrders H net w).2.doc[j]? =
          if j = el then w.doc[j]?.map (fun e => { e with
            innerHTML := "<tr><td colspan=\"6\" class=\"hint\">需要 API key 才能讀取</td></tr>"
            textContent :=
              H.htmlText "<tr><td colspan=\"6\" class=\"hint\">需要 API key 才能讀取</td></tr>" })
          else w.doc[j]?) := by
  constructor
  · intro hnet
    have hrun : loadBalances H net w = (.done (),
        { doc := setText H (setText H w.doc "qrl-total" "NEED API KEY" (some "var(--warning)"))
            "usdt-total" "NEED API KEY" (some "var(--warning)"),
          log := w.log ++ [Event.fetch "/account/balance"] }) := by
      simp [loadBalances, Js.andThen, Js.attempt, fetch, hnet, setTextJs]
    have hesc : escapeText "NEED API KEY" = "NEED API KEY" := by decide
    rw [hrun]
    refine ⟨rfl, rfl, ?_, ?_⟩
    · simp [setText_length]
    · intro j
      simp only [setText_getElem?, getElementById_setText, Option.map_map]
      congr 1
      funext e
      by_cases h1 : getElementById w.doc "qrl-total" = some j <;>
        by_cases h2 : getElementById w.doc "usdt-total" = some j <;>
        simp [h1, h2, colorOrEmpty, storedColor_warning, hesc]
  · intro hnet el hel
    have hrun : loadOrders H net w = (.done (),
        { doc := setInnerHTML H w.doc el
            "<tr><td colspan=\"6\" class=\"hint\">需要 API key 才能讀取</td></tr>",
          log := w.log ++ [Event.fetch "/account/orders"] }) := by
      simp [loadOrders, Js.andThen, Js.attempt, getElement, fetch, hnet, hel, assignInnerHTML]
    rw [hrun]
    refine ⟨rfl, rfl, ?_, ?_⟩
    · simp [setInnerHTML, updateAt_length]
    · intro j
      exact setInnerHTML_getElem? _ _ _ _ _

/-- C3 on the dashboard page. -/
theorem status_503_needs_api_key_witness :
    (loadBalances sampleHost (netAll (.response 503 .unparsable)) dashboardWorld).1 = .done () ∧
    (loadOrders sampleHost (netAll (.response 503 .unparsable)) dashboardWorld).2.log =
      dashboardWorld.log ++ [Event.fetch "/account/orders"] :=
  ⟨((status_503_needs_api_key sampleHost (netAll (.response 503 .unparsable)) dashboardWorld
      .unparsable).1 rfl).1,
    ((status_503_needs_api_key sampleHost (netAll (.response 503 .unparsable)) dashboardWorld
      .unparsable).2 rfl 15 (by decide)).2.1⟩

/-! ## C4: empty results -/

theorem Except.bind_ok_inv {ε α β : Type} {x : Except ε α} {f : α → Except ε β} {b : β}
    (h : (x >>= f) = .ok b) : ∃ a, x = .ok a ∧ f a = .ok b := by
  cases x with
  | error e => cases h
  | ok a => exact ⟨a, rfl, h⟩

theorem orderColumns_length (H : Host) (o : JsVal) (cols : List String)
    (h : orderColumns H o = .ok cols) : cols.length = 6 := by
  unfold orderColumns at h
  repeat (obtain ⟨_, _, h⟩ := Except.bind_ok_inv h)
  cases h
  rfl

theorem tradeColumns_length (H : Host) (t : JsVal) (cols : List String)
    (h : tradeColumns H t = .ok cols) : cols.length = 6 := by
  unfold tradeColumns at h
  repeat (obtain ⟨_, _, h⟩ := Except.bind_ok_inv h)
  cases h
  rfl

theorem klineColumns_length (H : Host) (k : JsVal) (cols : List String)
    (h : klineColumns H k = .ok cols) : cols.length = 5 := by
  unfold klineColumns at h
  repeat (obtain ⟨_, _, h⟩ := Except.bind_ok_inv h)
  cases h
  rfl


/-- C4. A 2xx answer whose body is an object in which the array field (`orders`,
`trades`, `data` for klines) is absent or an empty array: the loader fulfils and
the table body holds exactly one row, the loader's no-data hint of class `hint`,
spanning 6 columns for orders, 6 for trades and 5 for klines, which is the number
of cells of every data row the loader renders. -/
theorem empty_result_shows_hint (H : Host) (net : Net) (w : World) (status : Nat)
    (fields : List (String × JsVal)) (hlo : 200 ≤ status) (hhi : status ≤ 299) :
    (net "/account/orders" = .response status (.json (.obj fields)) →
      (lookupField "orders" fields = none ∨ lookupField "orders" fields = some (.arr [])) →
      ∀ el, getElementById w.doc "orders-body" = some el →
        (loadOrders H net w).1 = .done () ∧
        (loadOrders H net w).2.doc = setInnerHTML H w.doc el (hintRow 6 "目前沒有訂單")) ∧
    (net "/account/trades" = .response status (.json (.obj fields)) →
      (lookupField "trades" fields = none ∨ lookupField "trades" fields = some (.arr [])) →
      ∀ el, getElementById w.doc "trades-body" = some el →
        (loadTrades H net w).1 = .done () ∧
        (loadTrades H net w).2.doc = setInnerHTML H w.doc el (hintRow 6 "目前沒有成交")) ∧
    (net "/market/klines/QRLUSDT?interval=1m&limit=5" = .response status (.json (.obj fields)) →
      (lookupField "data" fields = none ∨ lookupField "data" fields = some (.arr [])) →
      ∀ el, getElementById w.doc "kline-body" = some el →
        (loadKlines H net w).1 = .done () ∧
        (loadKlines H net w).2.doc = setInnerHTML H w.doc el (hintRow 5 "無K線資料")) ∧
    (∀ o cols, orderColumns H o = .ok cols → cols.length = 6) ∧
    (∀ t cols, tradeColumns H t = .ok cols → cols.length = 6) ∧
    (∀ k cols, klineColumns H k = .ok cols → cols.length = 5) := by
  have h503 : status ≠ 503 := by omega
  have h404 : status ≠ 404 := by omega
  have hok : ¬ (status < 200 ∨ 299 < status) := by omega
  have hr1 : hintRow 6 "目前沒有訂單" =
      "<tr><td colspan=\"6\" class=\"hint\">目前沒有訂單</td></tr>" := by decide
  have hr2 : hintRow 6 "目前沒有成交" =
      "<tr><td colspan=\"6\" class=\"hint\">目前沒有成交</td></tr>" := by decide
  have hr3 : hintRow 5 "無K線資料" =
      "<tr><td colspan=\"5\" class=\"hint\">無K線資料</td></tr>" := by decide
  refine ⟨?_, ?_, ?_, orderColumns_length H, tradeColumns_length H, klineColumns_length H⟩
  · intro hnet hfield el hel
    rw [hr1]
    rcases hfield with hf | hf <;>
      simp [loadOrders, Js.andThen, Js.attempt, Js.lift, Js.ret, Js.raise, getElement, fetch,
        Response.json, Response.ok, hnet, hel, h503, hok, assignInnerHTML, JsVal.getProp, hf,
        JsVal.or, JsVal.truthy]
  · intro hnet hfield el hel
    rw [hr2]
    rcases hfield with hf | hf <;>
      simp [loadTrades, Js.andThen, Js.attempt, Js.lift, Js.ret, Js.raise, getElement, fetch,
        Response.json, Response.ok, hnet, hel, hok, assignInnerHTML, JsVal.getProp, hf,
        JsVal.or, JsVal.truthy]
  · intro hnet hfield el hel
    rw [hr3]
    rcases hfield with hf | hf <;>
      simp [loadKlines, Js.andThen, Js.attempt, Js.lift, Js.ret, Js.raise, getElement, fetch,
        Response.json, Response.ok, hnet, hel, h404, hok, assignInnerHTML, JsVal.getProp, hf,
        JsVal.or, JsVal.truthy]

theorem empty_result_shows_hint_witness :
    (loadOrders sampleHost (netAll (.response 200 (.json (.obj [("orders", .arr [])]))))
      dashboardWorld).1 = .done () ∧
    (loadOrders sampleHost (netAll (.response 200 (.json (.obj [("orders", .arr [])]))))
      dashboardWorld).2.doc = setInnerHTML sampleHost dashboardWorld.doc 15 (hintRow 6 "目前沒有訂單") :=
  (empty_result_shows_hint sampleHost (netAll (.response 200 (.json (.obj [("orders", .arr [])]))))
    dashboardWorld 200 [("orders", .arr [])] (by decide) (by decide)).1 rfl (Or.inr rfl) 15
    (by decide)

/-! ## C9: what the rows show -/

theorem getProp_obj (fields : List (String × JsVal)) (name : String) :
    (JsVal.obj fields).getProp name = .ok (fieldOf fields name) := rfl

theorem fieldOf_nil (name : String) : fieldOf [] name = .undefined := rfl

theorem orDash_fieldOf (H : Host) (fields : List (String × JsVal)) (name : String) :
    orDash H (fieldOf fields name) = shownField H fields name := by
  unfold orDash shownField JsVal.or fieldOf
  cases lookupField name fields with
  | none => simp [JsVal.truthy, JsVal.toStr]
  | some v => by_cases hv : v.truthy = true <;> simp [hv, JsVal.toStr]

theorem formatTime_falsy (H : Host) (v : JsVal) (h : v.truthy = false) :
    formatTime H v = .ok "--" := by
  simp [formatTime, h]

theorem or_of_truthy (a b : JsVal) (h : a.truthy = true) : a.or b = a := by
  simp [JsVal.or, h]

theorem or_of_falsy (a b : JsVal) (h : a.truthy = false) : a.or b = b := by
  simp [JsVal.or, h]

theorem formatTime_or2 (H : Host) (fields : List (String × JsVal)) (a b : String) :
    formatTime H ((fieldOf fields a).or (fieldOf fields b)) =
      formatTime H (firstTruthyField fields [a, b]) := by
  cases ha : (fieldOf fields a).truthy with
  | true => simp only [firstTruthyField, ha, if_true, or_of_truthy _ _ ha]
  | false =>
    cases hb : (fieldOf fields b).truthy with
    | true =>
      simp only [firstTruthyField, ha, hb, if_true, or_of_falsy _ _ ha]
      simp
    | false =>
      simp only [firstTruthyField, ha, hb, or_of_falsy _ _ ha]
      rw [formatTime_falsy H _ hb]
      rfl

theorem formatTime_or3 (H : Host) (fields : List (String × JsVal)) (a b c : String) :
    formatTime H (((fieldOf fields a).or (fieldOf fields b)).or (fieldOf fields c)) =
      formatTime H (firstTruthyField fields [a, b, c]) := by
  cases ha : (fieldOf fields a).truthy with
  | true =>
    simp only [firstTruthyField, ha, if_true, or_of_truthy _ (fieldOf fields b) ha,
      or_of_truthy _ (fieldOf fields c) ha]
  | false =>
    rw [or_of_falsy _ (fieldOf fields b) ha]
    cases hb : (fieldOf fields b).truthy with
    | true =>
      simp only [firstTruthyField, ha, hb, if_true, or_of_truthy _ _ hb]
      simp
    | false =>
      rw [or_of_falsy _ _ hb]
      cases hc : (fieldOf fields c).truthy with
      | true =>
        simp only [firstTruthyField, ha, hb, hc, if_true]
        simp
      | false =>
        simp only [firstTruthyField, ha, hb, hc]
        rw [formatTime_falsy H _ hc]
        rfl

theorem truthy_or2 (fields : List (String × JsVal)) (a b : String) :
    ((fieldOf fields a).or (fieldOf fields b)).truthy =
      (firstTruthyField fields [a, b]).truthy := by
  cases ha : (fieldOf fields a).truthy with
  | true => simp only [firstTruthyField, ha, if_true, or_of_truthy _ _ ha]
  | false =>
    rw [or_of_falsy _ _ ha]
    cases hb : (fieldOf fields b).truthy with
    | true =>
      simp only [firstTruthyField, ha, hb, if_true]
      simp [hb]
    | false =>
      simp only [firstTruthyField, ha, hb]
      rfl

theorem upperCase_side (H : Host) (fields : List (String × JsVal)) :
    (callToUpperCase H ((fieldOf fields "side").or (.str ""))).map
        (fun side => if side != "" then side else "--") =
      expectedOrderSide H fields := by
  unfold expectedOrderSide fieldOf JsVal.or
  cases lookupField "side" fields with
  | none => simp [JsVal.truthy, callToUpperCase, Except.map, H.toUpperCase_empty]
  | some v =>
    by_cases hv : v.truthy = true
    · cases v <;> simp [hv, callToUpperCase, Except.map]
    · simp [hv, callToUpperCase, Except.map, H.toUpperCase_empty]

/-- The stated order cells are the cells the row template of `loadOrders` computes. -/
theorem orderColumns_obj (H : Host) (fields : List (String × JsVal)) :
    orderColumns H (.obj fields) = expectedOrderCells H fields := by
  unfold orderColumns expectedOrderCells
  simp only [getProp_obj, bind, Except.bind, orDash_fieldOf, formatTime_or3]
  rw [← upperCase_side]
  cases callToUpperCase H ((fieldOf fields "side").or (.str "")) <;> rfl

theorem tradeAmount_obj (H : Host) (fields : List (String × JsVal)) :
    tradeAmount H (.obj fields) = expectedTradeAmount H fields := by
  unfold tradeAmount expectedTradeAmount
  simp only [getProp_obj, bind, Except.bind, pure, Except.pure]

theorem toStr_or_empty (H : Host) (v : JsVal) :
    (v.or (.str "")).toStr H = if v.truthy then v.toStr H else .ok "" := by
  cases hv : v.truthy with
  | true => simp [or_of_truthy _ _ hv]
  | false => simp [or_of_falsy _ _ hv, JsVal.toStr]

/-- The stated trade cells are the cells the row template of `loadTrades` computes. -/
theorem tradeColumns_obj (H : Host) (fields : List (String × JsVal)) :
    tradeColumns H (.obj fields) = expectedTradeCells H fields := by
  unfold tradeColumns expectedTradeCells
  simp only [getProp_obj, bind, Except.bind, orDash_fieldOf, formatTime_or2, truthy_or2,
    tradeAmount_obj, toStr_or_empty]

/-- The stated cells are the cells the row template of `loadAggTrades` computes. -/
theorem aggTradeColumns_obj (H : Host) (fields : List (String × JsVal)) :
    aggTradeColumns H (.obj fields) = expectedAggTradeCells H fields := by
  unfold aggTradeColumns expectedAggTradeCells
  simp only [getProp_obj, bind, Except.bind, orDash_fieldOf, formatTime_or2]

/-- The row of an order, for every element: what C9 describes. -/
theorem orderRow_eq (H : Host) (o : JsVal) : orderRow H o = expectedOrderRow H o := by
  have hobj : ∀ fields, orderRow H (.obj fields) = expectedOrderRow H (.obj fields) := by
    intro fields
    show (orderColumns H (.obj fields)).map tableRow = (expectedOrderCells H fields).map tableRow
    rw [orderColumns_obj]
  cases o with
  | undefined => rfl
  | null => rfl
  | obj fields => exact hobj fields
  | bool b => exact hobj []
  | num n => exact hobj []
  | str s => exact hobj []
  | arr items => exact hobj []

/-- The row of a trade, for every element: what C9 describes. -/
theorem tradeRow_eq (H : Host) (t : JsVal) : tradeRow H t = expectedTradeRow H t := by
  have hobj : ∀ fields, tradeRow H (.obj fields) = expectedTradeRow H (.obj fields) := by
    intro fields
    show (tradeColumns H (.obj fields)).map tableRow = (expectedTradeCells H fields).map tableRow
    rw [tradeColumns_obj]
  cases t with
  | undefined => rfl
  | null => rfl
  | obj fields => exact hobj fields
  | bool b => exact hobj []
  | num n => exact hobj []
  | str s => exact hobj []
  | arr items => exact hobj []

/-- The row of an aggregate trade, for every element: what C9 describes. -/
theorem aggTradeRow_eq (H : Host) (t : JsVal) : aggTradeRow H t = expectedAggTradeRow H t := by
  have hobj : ∀ fields, aggTradeRow H (.obj fields) = expectedAggTradeRow H (.obj fields) := by
    intro fields
    show (aggTradeColumns H (.obj fields)).map tableRow =
      (expectedAggTradeCells H fields).map tableRow
    rw [aggTradeColumns_obj]
  cases t with
  | undefined => rfl
  | null => rfl
  | obj fields => exact hobj fields
  | bool b => exact hobj []
  | num n => exact hobj []
  | str s => exact hobj []
  | arr items => exact hobj []

/-- The row of a kline, for every element: what C9 describes. -/
theorem klineRow_eq (H : Host) (k : JsVal) : klineRow H k = expectedKlineRow H k := by
  unfold klineRow klineColumns expectedKlineRow
  cases h0 : k.getIndex 0 with
  | error e => rfl
  | ok v0 =>
    simp only [bind, Except.bind, Except.map, pure, Except.pure]
    cases formatTime H v0 <;> simp only []
    cases k.getIndex 1 <;> simp only []
    rename_i v1
    cases v1.toStr H <;> simp only []
    cases k.getIndex 2 <;> simp only []
    rename_i v2
    cases v2.toStr H <;> simp only []
    cases k.getIndex 3 <;> simp only []
    rename_i v3
    cases v3.toStr H <;> simp only []
    cases k.getIndex 4 <;> simp only []
    rename_i v4
    cases v4.toStr H <;> simp only []

theorem getProp_elementFields (s : JsVal) (name : String) (hn : (name == "length") = false) :
    s.getProp name = (elementFields s).map (fun fields => fieldOf fields name) := by
  cases s with
  | undefined => rfl
  | null => rfl
  | obj fields => rfl
  | bool b => rfl
  | num n => rfl
  | str s => simp [JsVal.getProp, hn, elementFields, Except.map, fieldOf_nil]
  | arr items => simp [JsVal.getProp, hn, elementFields, Except.map, fieldOf_nil]

theorem orDash_getPropOpt (H : Host) (v : JsVal) (name : String)
    (hn : (name == "length") = false) :
    ∃ x, v.getPropOpt name = .ok x ∧ orDash H x = shownFieldOf H v name := by
  cases v with
  | undefined => exact ⟨.undefined, rfl, rfl⟩
  | null => exact ⟨.undefined, rfl, rfl⟩
  | obj fields => exact ⟨fieldOf fields name, rfl, orDash_fieldOf H fields name⟩
  | bool b => exact ⟨.undefined, rfl, rfl⟩
  | num n => exact ⟨.undefined, rfl, rfl⟩
  | str s => exact ⟨.undefined, by simp [JsVal.getPropOpt, JsVal.getProp, hn], rfl⟩
  | arr items => exact ⟨.undefined, by simp [JsVal.getPropOpt, JsVal.getProp, hn], rfl⟩

/-- The row of the exchange info, for every symbol: what C9 describes. -/
theorem exchangeInfoRow_eq (H : Host) (s : JsVal) :
    (exchangeInfoColumns H s).map tableRow = expectedExchangeInfoRow H s := by
  unfold exchangeInfoColumns expectedExchangeInfoRow
  simp only [bind, Except.bind, getProp_elementFields s "symbol" (by decide),
    getProp_elementFields s "status" (by decide)]
  cases findFilter s "LOT_SIZE" with
  | error e => rfl
  | ok lot =>
    obtain ⟨x, hx, hxd⟩ := orDash_getPropOpt H lot "minQty" (by decide)
    simp only [hx]
    cases findFilter s "NOTIONAL" with
    | error e => rfl
    | ok notional =>
      obtain ⟨y, hy, hyd⟩ := orDash_getPropOpt H notional "minNotional" (by decide)
      simp only [hy]
      cases elementFields s with
      | error e => rfl
      | ok fields =>
        simp only [Except.map, orDash_fieldOf]
        rw [← hxd, ← hyd]
        unfold orDash
        cases (fieldOf fields "symbol").toStr H <;> simp only []
        cases shownField H fields "status" <;> simp only []
        cases (x.or (.str "--")).toStr H <;> simp only []
        cases (y.or (.str "--")).toStr H <;> simp only []
        rfl

theorem bookTickerText_obj (H : Host) (fields : List (String × JsVal)) (a b : String) :
    bookTickerText H (.obj fields) a b = expectedBookText H fields a b := by
  unfold bookTickerText expectedBookText
  simp only [getProp_obj, bind, Except.bind, orDash_fieldOf]

/-- What `findFilter` finds: nothing when the symbol has no `filters`, and the
first filter when it is an object of the type asked for. -/
theorem findFilter_cases (fields : List (String × JsVal)) (name : String) :
    (lookupField "filters" fields = none → findFilter (.obj fields) name = .ok .undefined) ∧
    (∀ g rest, lookupField "filters" fields = some (.arr (.obj g :: rest)) →
      lookupField "filterType" g = some (.str name) →
      findFilter (.obj fields) name = .ok (.obj g)) := by
  constructor
  · intro h
    simp [findFilter, JsVal.getProp, h, bind, Except.bind, pure, Except.pure]
  · intro g rest h hg
    simp [findFilter, JsVal.getProp, h, hg, bind, Except.bind, pure, Except.pure, findFirst,
      filterTypeIs]

theorem length_truthy (items : List JsVal) (h : items ≠ []) :
    (JsVal.num (.fin false items.length 0)).truthy = true := by
  cases items with
  | nil => exact absurd rfl h
  | cons a as => simp [JsVal.truthy]

theorem loadOrders_rows (H : Host) (net : Net) (w : World) (status : Nat)
    (fields : List (String × JsVal)) (items : List JsVal) (el : Nat)
    (hlo : 200 ≤ status) (hhi : status ≤ 299)
    (hnet : net "/account/orders" = .response status (.json (.obj fields)))
    (hf : lookupField "orders" fields = some (.arr items)) (hne : items ≠ [])
    (hel : getElementById w.doc "orders-body" = some el) :
    (loadOrders H net w).1 = .done () ∧
    (loadOrders H net w).2.doc = setInnerHTML H w.doc el
      (rowsOr "<tr><td colspan=\"6\" class=\"error\">訂單載入失敗</td></tr>"
        (items.mapM (expectedOrderRow H))) := by
  have h503 : status ≠ 503 := by omega
  have hok : ¬ (status < 200 ∨ 299 < status) := by omega
  have hlen := length_truthy items hne
  have hcall : callMap (.arr items) (orderRow H) = items.mapM (expectedOrderRow H) := by
    rw [funext (orderRow_eq H)]; rfl
  generalize items.mapM (expectedOrderRow H) = r at hcall ⊢
  cases r <;>
    simp [loadOrders, Js.andThen, Js.attempt, Js.lift, Js.ret, Js.raise, getElement, fetch,
      Response.json, Response.ok, hnet, hel, h503, hok, assignInnerHTML, JsVal.getProp, hf,
      JsVal.or, JsVal.truthy, hcall, rowsOr, consoleError, hlen, hne]

theorem loadTrades_rows (H : Host) (net : Net) (w : World) (status : Nat)
    (fields : List (String × JsVal)) (items : List JsVal) (el : Nat)
    (hlo : 200 ≤ status) (hhi : status ≤ 299)
    (hnet : net "/account/trades" = .response status (.json (.obj fields)))
    (hf : lookupField "trades" fields = some (.arr items)) (hne : items ≠ [])
    (hel : getElementById w.doc "trades-body" = some el) :
    (loadTrades H net w).1 = .done () ∧
    (loadTrades H net w).2.doc = setInnerHTML H w.doc el
      (rowsOr "<tr><td colspan=\"6\" class=\"error\">成交載入失敗</td></tr>"
        (items.mapM (expectedTradeRow H))) := by
  have hok : ¬ (status < 200 ∨ 299 < status) := by omega
  have hlen := length_truthy items hne
  have hcall : callMap (.arr items) (tradeRow H) = items.mapM (expectedTradeRow H) := by
    rw [funext (tradeRow_eq H)]; rfl
  generalize items.mapM (expectedTradeRow H) = r at hcall ⊢
  cases r <;>
    simp [loadTrades, Js.andThen, Js.attempt, Js.lift, Js.ret, Js.raise, getElement, fetch,
      Response.json, Response.ok, hnet, hel, hok, assignInnerHTML, JsVal.getProp, hf,
      JsVal.or, JsVal.truthy, hcall, rowsOr, consoleError, hlen, hne]

theorem loadAggTrades_rows (H : Host) (net : Net) (w : World) (status : Nat)
    (fields : List (String × JsVal)) (items : List JsVal) (el : Nat)
    (hlo : 200 ≤ status) (hhi : status ≤ 299)
    (hnet : net "/market/agg-trades/QRLUSDT?limit=10" = .response status (.json (.obj fields)))
    (hf : lookupField "data" fields = some (.arr items)) (hne : items ≠ [])
    (hel : getElementById w.doc "agg-body" = some el) :
    (loadAggTrades H net w).1 = .done () ∧
    (loadAggTrades H net w).2.doc = setInnerHTML H w.doc el
      (rowsOr "<tr><td colspan=\"4\" class=\"error\">Agg trades 載入失敗</td></tr>"
        ((items.take 10).mapM (expectedAggTradeRow H))) := by
  have hok : ¬ (status < 200 ∨ 299 < status) := by omega
  have hlen := length_truthy items hne
  have hcall : callSliceMap (.arr items) 10 (aggTradeRow H) =
      (items.take 10).mapM (expectedAggTradeRow H) := by
    rw [funext (aggTradeRow_eq H)]; rfl
  generalize (items.take 10).mapM (expectedAggTradeRow H) = r at hcall ⊢
  cases r <;>
    simp [loadAggTrades, Js.andThen, Js.attempt, Js.lift, Js.ret, Js.raise, getElement, fetch,
      Response.json, Response.ok, hnet, hel, hok, assignInnerHTML, JsVal.getProp, hf,
      JsVal.or, JsVal.truthy, hcall, rowsOr, consoleError, logError, hlen, hne]

theorem loadKlines_rows (H : Host) (net : Net) (w : World) (status : Nat)
    (fields : List (String × JsVal)) (items : List JsVal) (el : Nat)
    (hlo : 200 ≤ status) (hhi : status ≤ 299)
    (hnet : net "/market/klines/QRLUSDT?interval=1m&limit=5" =
      .response status (.json (.obj fields)))
    (hf : lookupField "data" fields = some (.arr items)) (hne : items ≠ [])
    (hel : getElementById w.doc "kline-body" = some el) :
    (loadKlines H net w).1 = .done () ∧
    (loadKlines H net w).2.doc = setInnerHTML H w.doc el
      (rowsOr "<tr><td colspan=\"5\" class=\"hint\">無K線資料</td></tr>"
        ((items.drop (items.length - 5)).mapM (expectedKlineRow H))) := by
  have h404 : status ≠ 404 := by omega
  have hok : ¬ (status < 200 ∨ 299 < status) := by omega
  have hlen := length_truthy items hne
  have hcall : callSliceLastMap (.arr items) 5 (klineRow H) =
      (items.drop (items.length - 5)).mapM (expectedKlineRow H) := by
    rw [funext (klineRow_eq H)]; rfl
  generalize (items.drop (items.length - 5)).mapM (expectedKlineRow H) = r at hcall ⊢
  cases r <;>
    simp [loadKlines, Js.andThen, Js.attempt, Js.lift, Js.ret, Js.raise, getElement, fetch,
      Response.json, Response.ok, hnet, hel, h404, hok, assignInnerHTML, JsVal.getProp, hf,
      JsVal.or, JsVal.truthy, hcall, rowsOr, consoleError, hlen, hne]

theorem loadExchangeInfo_row (H : Host) (net : Net) (w : World) (status : Nat)
    (fields info : List (String × JsVal)) (s : JsVal) (rest : List JsVal) (el : Nat)
    (hlo : 200 ≤ status) (hhi : status ≤ 299)
    (hnet : net "/market/exchange-info?symbol=QRLUSDT" = .response status (.json (.obj fields)))
    (hf : lookupField "data" fields = some (.obj info))
    (hs : lookupField "symbols" info = some (.arr (s :: rest)))
    (hel : getElementById w.doc "info-body" = some el) :
    (loadExchangeInfo H net w).1 = .done () ∧
    (loadExchangeInfo H net w).2.doc = setInnerHTML H w.doc el
      (match expectedExchangeInfoRow H s with
        | .ok row => row
        | .error _ => "<tr><td colspan=\"4\" class=\"error\">載入失敗</td></tr>") := by
  have hok : ¬ (status < 200 ∨ 299 < status) := by omega
  have hrow := exchangeInfoRow_eq H s
  generalize expectedExchangeInfoRow H s = r at hrow ⊢
  cases hc : exchangeInfoColumns H s with
  | error e =>
    rw [hc] at hrow
    cases r with
    | ok row => cases hrow
    | error e2 =>
      simp [loadExchangeInfo, Js.andThen, Js.attempt, Js.lift, Js.ret, Js.raise, getElement,
        fetch, Response.json, Response.ok, hnet, hel, hok, assignInnerHTML, JsVal.getProp, hf,
        hs, JsVal.or, JsVal.truthy, JsVal.getIndex, hc, consoleError]
  | ok cols =>
    rw [hc] at hrow
    cases r with
    | error e2 => cases hrow
    | ok row =>
      have hrow2 : tableRow cols = row := by simpa [Except.map] using hrow
      simp [loadExchangeInfo, Js.andThen, Js.attempt, Js.lift, Js.ret, Js.raise, getElement,
        fetch, Response.json, Response.ok, hnet, hel, hok, assignInnerHTML, JsVal.getProp, hf,
        hs, JsVal.or, JsVal.truthy, JsVal.getIndex, hc, hrow2]

theorem loadBookTicker_texts (H : Host) (net : Net) (w : World) (status : Nat)
    (fields book : List (String × JsVal))
    (hlo : 200 ≤ status) (hhi : status ≤ 299)
    (hnet : net "/market/book-ticker/QRLUSDT" = .response status (.json (.obj fields)))
    (hf : lookupField "data" fields = some (.obj book)) :
    (loadBookTicker H net w).1 = .done () ∧
    (loadBookTicker H net w).2.doc =
      (match expectedBookText H book "bidPrice" "bidQty" with
        | .error _ => bookTickerError H w.doc
        | .ok bid =>
          match expectedBookText H book "askPrice" "askQty" with
          | .error _ => bookTickerError H (setText H w.doc "best-bid" bid none)
          | .ok ask => setText H (setText H w.doc "best-bid" bid none) "best-ask" ask none) ∧
    (loadBookTickerMarket H net w).2.doc = (loadBookTicker H net w).2.doc := by
  have hok : ¬ (status < 200 ∨ 299 < status) := by omega
  have hbid := bookTickerText_obj H book "bidPrice" "bidQty"
  have hask := bookTickerText_obj H book "askPrice" "askQty"
  generalize expectedBookText H book "bidPrice" "bidQty" = rb at hbid ⊢
  generalize expectedBookText H book "askPrice" "askQty" = ra at hask ⊢
  cases rb <;> cases ra <;>
    simp [loadBookTicker, loadBookTickerMarket, Js.andThen, Js.attempt, Js.lift, Js.ret,
      Js.raise, fetch, Response.json, Response.ok, hnet, hok, setTextJs, JsVal.getProp, hf,
      JsVal.or, JsVal.truthy, hbid, hask, bookTickerError, consoleError, logError]

theorem firstTruthyField_absent (fields : List (String × JsVal)) (names : List String)
    (h : ∀ name ∈ names, lookupField name fields = none) :
    firstTruthyField fields names = .undefined := by
  induction names with
  | nil => rfl
  | cons name names ih =>
    have h1 : fieldOf fields name = .undefined := by
      simp [fieldOf, h name (List.mem_cons_self _ _)]
    simp only [firstTruthyField, h1]
    exact ih (fun n hn => h n (List.mem_cons_of_mem _ hn))

/-- C9, as the code has it. On a 2xx answer with an object body and the table
body on the page, `loadOrders`, `loadTrades`, `loadAggTrades` (the first 10) and
`loadKlines` (the last 5) fulfil having written one row per element of a
non-empty array, `loadExchangeInfo` one row for the first symbol, and
`loadBookTicker` its two texts. In these rows a field rendered through
`|| "--"` shows "--" when it is absent or falsy and its own string when it is
truthy; a time cell shows "--" when none of its fields is present; the side of
an order shows "--" when absent. The kline cells and the symbol have no
fallback. When an element is null or undefined, or a conversion throws (an
order side that is truthy and no string, a value that is an object with an own
`toString`), the loader writes its error placeholder (`loadKlines` its no-data
hint) and no row. -/
theorem rows_show_fields (H : Host) (net : Net) (w : World) (status : Nat)
    (fields : List (String × JsVal)) (hlo : 200 ≤ status) (hhi : status ≤ 299) :
    (∀ f name, lookupField name f = none → shownField H f name = .ok "--") ∧
    (∀ f name v, lookupField name f = some v → v.truthy = false →
      shownField H f name = .ok "--") ∧
    (∀ f name v, lookupField name f = some v → v.truthy = true →
      shownField H f name = v.toStr H) ∧
    (∀ g, hasField "toString" g = true → (JsVal.obj g).toStr H = .error .typeError) ∧
    (∀ f names, (∀ name ∈ names, lookupField name f = none) →
      formatTime H (firstTruthyField f names) = .ok "--") ∧
    (∀ f, lookupField "side" f = none → expectedOrderSide H f = .ok "--") ∧
    (∀ items el, net "/account/orders" = .response status (.json (.obj fields)) →
      lookupField "orders" fields = some (.arr items) → items ≠ [] →
      getElementById w.doc "orders-body" = some el →
      (loadOrders H net w).1 = .done () ∧
      (loadOrders H net w).2.doc = setInnerHTML H w.doc el
        (rowsOr "<tr><td colspan=\"6\" class=\"error\">訂單載入失敗</td></tr>"
          (items.mapM (expectedOrderRow H)))) ∧
    (∀ items el, net "/account/trades" = .response status (.json (.obj fields)) →
      lookupField "trades" fields = some (.arr items) → items ≠ [] →
      getElementById w.doc "trades-body" = some el →
      (loadTrades H net w).1 = .done () ∧
      (loadTrades H net w).2.doc = setInnerHTML H w.doc el
        (rowsOr "<tr><td colspan=\"6\" class=\"error\">成交載入失敗</td></tr>"
          (items.mapM (expectedTradeRow H)))) ∧
    (∀ items el,
      net "/market/agg-trades/QRLUSDT?limit=10" = .response status (.json (.obj fields)) →
      lookupField "data" fields = some (.arr items) → items ≠ [] →
      getElementById w.doc "agg-body" = some el →
      (loadAggTrades H net w).1 = .done () ∧
      (loadAggTrades H net w).2.doc = setInnerHTML H w.doc el
        (rowsOr "<tr><td colspan=\"4\" class=\"error\">Agg trades 載入失敗</td></tr>"
          ((items.take 10).mapM (expectedAggTradeRow H)))) ∧
    (∀ items el,
      net "/market/klines/QRLUSDT?interval=1m&limit=5" = .response status (.json (.obj fields)) →
      lookupField "data" fields = some (.arr items) → items ≠ [] →
      getElementById w.doc "kline-body" = some el →
      (loadKlines H net w).1 = .done () ∧
      (loadKlines H net w).2.doc = setInnerHTML H w.doc el
        (rowsOr "<tr><td colspan=\"5\" class=\"hint\">無K線資料</td></tr>"
          ((items.drop (items.length - 5)).mapM (expectedKlineRow H)))) ∧
    (∀ info s rest el,
      net "/market/exchange-info?symbol=QRLUSDT" = .response status (.json (.obj fields)) →
      lookupField "data" fields = some (.obj info) →
      lookupField "symbols" info = some (.arr (s :: rest)) →
      getElementById w.doc "info-body" = some el →
      (loadExchangeInfo H net w).1 = .done () ∧
      (loadExchangeInfo H net w).2.doc = setInnerHTML H w.doc el
        (match expectedExchangeInfoRow H s with
          | .ok row => row
          | .error _ => "<tr><td colspan=\"4\" class=\"error\">載入失敗</td></tr>")) ∧
    (∀ f name, (lookupField "filters" f = none → findFilter (.obj f) name = .ok .undefined) ∧
      (∀ g rest, lookupField "filters" f = some (.arr (.obj g :: rest)) →
        lookupField "filterType" g = some (.str name) →
        findFilter (.obj f) name = .ok (.obj g))) ∧
    (∀ book, net "/market/book-ticker/QRLUSDT" = .response status (.json (.obj fields)) →
      lookupField "data" fields = some (.obj book) →
      (loadBookTicker H net w).1 = .done () ∧
      (loadBookTicker H net w).2.doc =
        (match expectedBookText H book "bidPrice" "bidQty" with
          | .error _ => bookTickerError H w.doc
          | .ok bid =>
            match expectedBookText H book "askPrice" "askQty" with
            | .error _ => bookTickerError H (setText H w.doc "best-bid" bid none)
            | .ok ask => setText H (setText H w.doc "best-bid" bid none) "best-ask" ask none) ∧
      (loadBookTickerMarket H net w).2.doc = (loadBookTicker H net w).2.doc) := by
  refine ⟨?_, ?_, ?_, ?_, ?_, ?_, ?_, ?_, ?_, ?_, ?_, ?_, ?_⟩
  · intro f name h
    simp [shownField, h]
  · intro f name v h hv
    simp [shownField, h, hv]
  · intro f name v h hv
    simp [shownField, h, hv]
  · intro g h
    simp [JsVal.toStr, h]
  · intro f names h
    rw [firstTruthyField_absent f names h]
    rfl
  · intro f h
    simp [expectedOrderSide, h]
  · intro items el hnet hf hne hel
    exact loadOrders_rows H net w status fields items el hlo hhi hnet hf hne hel
  · intro items el hnet hf hne hel
    exact loadTrades_rows H net w status fields items el hlo hhi hnet hf hne hel
  · intro items el hnet hf hne hel
    exact loadAggTrades_rows H net w status fields items el hlo hhi hnet hf hne hel
  · intro items el hnet hf hne hel
    exact loadKlines_rows H net w status fields items el hlo hhi hnet hf hne hel
  · intro info s rest el hnet hf hs hel
    exact loadExchangeInfo_row H net w status fields info s rest el hlo hhi hnet hf hs hel
  · intro f name
    exact findFilter_cases f name
  · intro book hnet hf
    exact loadBookTicker_texts H net w status fields book hlo hhi hnet hf

/-- C9 on the dashboard page, for one order with the price "1.5" and nothing
else: every other cell of its row shows "--". -/
theorem rows_show_fields_witness :
    (loadOrders sampleHost
      (netAll (.response 200 (.json (.obj [("orders", .arr [.obj [("price", .str "1.5")]])]))))
      dashboardWorld).2.doc =
    setInnerHTML sampleHost dashboardWorld.doc 15
      ("<tr><td>--</td><td><span class=\"tag\">--</span></td><td>1.5</td><td>--</td>" ++
        "<td>--</td><td>--</td></tr>") :=
  ((rows_show_fields sampleHost
    (netAll (.response 200 (.json (.obj [("orders", .arr [.obj [("price", .str "1.5")]])]))))
    dashboardWorld 200 [("orders", .arr [.obj [("price", .str "1.5")]])] (by decide)
    (by decide)).2.2.2.2.2.2.1 [.obj [("price", .str "1.5")]] 15 rfl rfl (by simp)
    (by decide)).2.trans (by decide)

/-- C9, counterexample. What the tables hold after a 200 answer: a kline with
one item shows "undefined" in four cells; a trade without `commissionAsset`
shows an empty text after the commission and, without `isBuyer`, the side SELL;
an order whose `executedQty` is the number 0 shows "--" although the field is
present, and its side "buy" is shown as "BUY"; an order whose `side` is the
number 1 leaves the error row. -/
theorem missing_fields_counterexample :
    ((loadKlines sampleHost
        (netAll (.response 200 (.json (.obj [("data", .arr [.arr [.num (JsNum.ofInt 5)]])]))))
        dashboardWorld).2.doc[14]?).map Element.innerHTML =
      some ("<tr><td>date:5</td><td>undefined</td><td>undefined</td><td>undefined</td>" ++
        "<td>undefined</td></tr>") ∧
    ((loadTrades sampleHost
        (netAll (.response 200 (.json (.obj [("trades", .arr [.obj []])]))))
        dashboardWorld).2.doc[16]?).map Element.innerHTML =
      some ("<tr><td>--</td><td><span class=\"tag\">SELL</span></td><td>--</td><td>--</td>" ++
        "<td>--</td><td>-- </td></tr>") ∧
    ((loadOrders sampleHost
        (netAll (.response 200 (.json (.obj [("orders",
          .arr [.obj [("executedQty", .num (JsNum.ofInt 0)), ("side", .str "buy")]])]))))
        dashboardWorld).2.doc[15]?).map Element.innerHTML =
      some ("<tr><td>--</td><td><span class=\"tag\">BUY</span></td><td>--</td><td>--</td>" ++
        "<td>--</td><td>--</td></tr>") ∧
    ((loadOrders sampleHost
        (netAll (.response 200 (.json (.obj [("orders",
          .arr [.obj [("side", .num (JsNum.ofInt 1))]])]))))
        dashboardWorld).2.doc[15]?).map Element.innerHTML =
      some "<tr><td colspan=\"6\" class=\"error\">訂單載入失敗</td></tr>" :=
  ⟨by decide, by decide, by decide, by decide⟩

/-! ## C1: the error placeholder -/

/-- For a status that is neither 2xx nor a distinguished one, the loaders other
than `loadKlines` fulfil having written their error placeholder: the row
of class `error` into the table body, or the text "ERROR" in the danger colour. -/
theorem error_status_shows_placeholder (H : Host) (net : Net) (w : World) (status : Nat)
    (b : Body) (hok : status < 200 ∨ 299 < status) (h503 : status ≠ 503) :
    (net "/account/orders" = .response status b →
      ∀ el, getElementById w.doc "orders-body" = some el →
        (loadOrders H net w).2.doc = setInnerHTML H w.doc el
          "<tr><td colspan=\"6\" class=\"error\">訂單載入失敗</td></tr>") ∧
    (net "/account/trades" = .response status b →
      ∀ el, getElementById w.doc "trades-body" = some el →
        (loadTrades H net w).2.doc = setInnerHTML H w.doc el
          "<tr><td colspan=\"6\" class=\"error\">成交載入失敗</td></tr>") ∧
    (net "/market/agg-trades/QRLUSDT?limit=10" = .response status b →
      ∀ el, getElementById w.doc "agg-body" = some el →
        (loadAggTrades H net w).2.doc = setInnerHTML H w.doc el
          "<tr><td colspan=\"4\" class=\"error\">Agg trades 載入失敗</td></tr>") ∧
    (net "/market/exchange-info?symbol=QRLUSDT" = .response status b →
      ∀ el, getElementById w.doc "info-body" = some el →
        (loadExchangeInfo H net w).2.doc = setInnerHTML H w.doc el
          "<tr><td colspan=\"4\" class=\"error\">載入失敗</td></tr>") ∧
    (net "/market/book-ticker/QRLUSDT" = .response status b →
      (loadBookTicker H net w).2.doc =
        setText H (setText H w.doc "best-bid" "ERROR" (some "var(--danger)"))
          "best-ask" "ERROR" (some "var(--danger)")) ∧
    (net "/market/ticker/QRLUSDT" = .response status b →
      (loadPrice H net w).2.doc =
        setText H (setText H (setText H w.doc "price" "ERROR" (some "var(--danger)"))
          "change" "--" none) "updated" "" none) ∧
    (net "/account/balance" = .response status b →
      (loadBalances H net w).2.doc =
        setText H (setText H w.doc "qrl-total" "ERROR" (some "var(--danger)"))
          "usdt-total" "ERROR" (some "var(--danger)")) := by
  refine ⟨?_, ?_, ?_, ?_, ?_, ?_, ?_⟩
  · intro hnet el hel
    simp [loadOrders, Js.andThen, Js.attempt, Js.raise, getElement, fetch, Response.ok, hnet,
      hel, h503, hok, assignInnerHTML, consoleError]
  · intro hnet el hel
    simp [loadTrades, Js.andThen, Js.attempt, Js.raise, getElement, fetch, Response.ok, hnet,
      hel, hok, assignInnerHTML, consoleError]
  · intro hnet el hel
    simp [loadAggTrades, Js.andThen, Js.attempt, Js.raise, getElement, fetch, Response.ok, hnet,
      hel, hok, assignInnerHTML, consoleError, logError]
  · intro hnet el hel
    simp [loadExchangeInfo, Js.andThen, Js.attempt, Js.raise, getElement, fetch, Response.ok,
      hnet, hel, hok, assignInnerHTML, consoleError]
  · intro hnet
    simp [loadBookTicker, Js.andThen, Js.attempt, Js.raise, fetch, Response.ok, hnet, hok,
      setTextJs, consoleError]
  · intro hnet
    simp [loadPrice, Js.andThen, Js.attempt, Js.raise, fetch, Response.ok, hnet, hok,
      setTextJs, consoleError]
  · intro hnet
    simp [loadBalances, Js.andThen, Js.attempt, Js.raise, fetch, Response.ok, hnet, hok, h503,
      setTextJs, consoleError]

/-- For a status that is neither 2xx nor 404, `loadKlines` fulfils having written
the row it writes for an empty result: the no-data hint of class `hint`. -/
theorem loadKlines_error_status (H : Host) (net : Net) (w : World) (status : Nat) (b : Body)
    (hok : status < 200 ∨ 299 < status) (h404 : status ≠ 404)
    (hnet : net "/market/klines/QRLUSDT?interval=1m&limit=5" = .response status b)
    (el : Nat) (hel : getElementById w.doc "kline-body" = some el) :
    (loadKlines H net w).2.doc = setInnerHTML H w.doc el
      "<tr><td colspan=\"5\" class=\"hint\">無K線資料</td></tr>" := by
  simp [loadKlines, Js.andThen, Js.attempt, Js.raise, getElement, fetch, Response.ok, hnet,
    hel, h404, hok, assignInnerHTML, consoleError]

/-- C1, the failing input. On the dashboard page, with every request answered
500, `loadKlines` leaves in `kline-body` the hint row "無K線資料", the very row it
shows for an empty result, where `loadOrders` leaves its row of class `error`. -/
theorem loadKlines_status_500_shows_hint :
    (loadKlines sampleHost (netAll (.response 500 .unparsable)) dashboardWorld).2.doc[14]? =
      some { id := "kline-body", textContent := "無K線資料", color := "",
             innerHTML := "<tr><td colspan=\"5\" class=\"hint\">無K線資料</td></tr>" } ∧
    (loadKlines sampleHost (netAll (.response 500 .unparsable)) dashboardWorld).2.doc =
      (loadKlines sampleHost (netAll (.response 200 (.json (.obj [("data", .arr [])]))))
        dashboardWorld).2.doc ∧
    (loadOrders sampleHost (netAll (.response 500 .unparsable)) dashboardWorld).2.doc[15]? =
      some { id := "orders-body", textContent := "訂單載入失敗", color := "",
             innerHTML := "<tr><td colspan=\"6\" class=\"error\">訂單載入失敗</td></tr>" } :=
  ⟨by decide, by decide, by decide⟩

/-! ## C10: timers -/

theorem clicks_timers (H : Host) (net : Net) (loadDepth : Js Unit) (btn : Nat)
    (evs : List ClickEvent) (p : Page) (hl : p.clickListener = some btn) :
    (clicks H net loadDepth btn evs p).timers = p.timers ++ evs.map IntervalArg.event ∧
    (clicks H net loadDepth btn evs p).refreshCalls = p.refreshCalls + evs.length ∧
    (clicks H net loadDepth btn evs p).clickListener = some btn := by
  induction evs generalizing p with
  | nil => simp [clicks, hl]
  | cons ev evs ih =>
    have hstep : click H net loadDepth btn ev p =
        startAutoRefresh H net loadDepth (some ev) p := by
      simp [click, hl]
    obtain ⟨h1, h2, h3⟩ := ih (click H net loadDepth btn ev p) (by rw [hstep]; exact hl)
    simp only [clicks]
    refine ⟨?_, ?_, h3⟩
    · rw [h1, hstep]; simp [startAutoRefresh]
    · rw [h2, hstep]; simp [startAutoRefresh]; omega

/-- C10. Every call of `startAutoRefresh` calls `refreshAll` once and appends
one interval timer to the timers there are, clearing none; its interval is
30000 when the call has no argument and the click event when it is called as
click handler. On a page with the refresh button, `initDashboard` followed by
clicks on the button leaves the timers there were, then one of 30000, then
one per click carrying that click's event: `k + 1` more timers and `k + 1`
more calls of `refreshAll` after `k` clicks. -/
theorem startAutoRefresh_timers (H : Host) (net : Net) (loadDepth : Js Unit) (p : Page) :
    (∀ arg, (startAutoRefresh H net loadDepth arg p).timers =
        p.timers ++ [match arg with
          | none => IntervalArg.ms 30000
          | some ev => IntervalArg.event ev] ∧
      (startAutoRefresh H net loadDepth arg p).refreshCalls = p.refreshCalls + 1 ∧
      (startAutoRefresh H net loadDepth arg p).world = (refreshAll H net loadDepth p.world).2) ∧
    (∀ btn evs, getElementById p.world.doc "refresh-btn" = some btn →
      (clicks H net loadDepth btn evs (initDashboard H net loadDepth p)).timers =
        p.timers ++ IntervalArg.ms 30000 :: evs.map IntervalArg.event ∧
      (clicks H net loadDepth btn evs (initDashboard H net loadDepth p)).timers.length =
        p.timers.length + (evs.length + 1) ∧
      (clicks H net loadDepth btn evs (initDashboard H net loadDepth p)).refreshCalls =
        p.refreshCalls + (evs.length + 1)) := by
  constructor
  · intro arg
    cases arg <;> simp [startAutoRefresh]
  · intro btn evs hbtn
    have hinit : (initDashboard H net loadDepth p).clickListener = some btn := by
      simp [initDashboard, hbtn, startAutoRefresh]
    obtain ⟨h1, h2, _⟩ := clicks_timers H net loadDepth btn evs _ hinit
    have ht : (initDashboard H net loadDepth p).timers = p.timers ++ [IntervalArg.ms 30000] := by
      simp [initDashboard, hbtn, startAutoRefresh]
    have hr : (initDashboard H net loadDepth p).refreshCalls = p.refreshCalls + 1 := by
      simp [initDashboard, hbtn, startAutoRefresh]
    refine ⟨?_, ?_, ?_⟩
    · rw [h1, ht]; simp
    · rw [h1, ht]; simp
    · rw [h2, hr]; omega

theorem startAutoRefresh_timers_witness :
    (clicks sampleHost (netAll .pending) depthDone 17 [{ timeStamp := 1 }, { timeStamp := 2 }]
      (initDashboard sampleHost (netAll .pending) depthDone freshPage)).timers =
      freshPage.timers ++ IntervalArg.ms 30000 ::
        [{ timeStamp := 1 }, { timeStamp := 2 }].map IntervalArg.event :=
  ((startAutoRefresh_timers sampleHost (netAll .pending) depthDone freshPage).2 17
    [{ timeStamp := 1 }, { timeStamp := 2 }] (by decide)).1

end QrlDashboard
